import Mathlib

/-!
Verification of the in-memory shopping-cart / e-commerce domain logic of the
repository: the direct-tool agent (`Class 3 - Mastering Tools/Ecommerce/agent.py`),
whose cart logic is duplicated by the MCP tool server
(`Class 4 - MCP/MCP_Ecommerce/ecommerce_mcp_server.py`).

Modelling conventions:
* Python `float` currency amounts, rates and ratings are modelled exactly over `ℚ`
  (every literal of the program is a short decimal fraction).
* Python `int` is modelled by `ℤ` (or `ℕ` where the source value is a count).
* Python strings are modelled as `List Char`; `str.lower`, `str.upper` and
  `str.strip` are modelled over the ASCII range, which covers all string data
  of the program.
* `difflib.get_close_matches` (the standard library routine the program calls
  with `n = 1, cutoff = 0.6`) is modelled by a faithful port of CPython's
  `SequenceMatcher` with `isjunk = None`: the dynamic-programming longest-match
  search including the `autojunk` "popular element" rule, the Ratcliff/Obershelp
  recursion, and the final `max` over `(ratio, candidate)` pairs.
  Similarity ratios `2*M/T` are represented by the numerator/denominator pair
  `(M, T) : ℕ × ℕ` and compared by exact cross multiplication, which agrees
  with the comparisons of correctly rounded floating-point ratios for all
  string lengths that can occur (the gap between distinct candidate ratios is
  far larger than the rounding error).  `quick_ratio` and `real_quick_ratio`
  are documented upper bounds of `ratio` used by `get_close_matches` only as
  `≥ cutoff` prefilters, so they never change its result and are elided.
-/

namespace EC

/-- Python strings, modelled as lists of characters. -/
abbrev Str := List Char

/-- Python whitespace for `str.strip()` (ASCII range). -/
def pyWhitespace (c : Char) : Bool :=
  c == ' ' || c == '\t' || c == '\n' || c == '\r' || c == '\x0b' || c == '\x0c'

/-- Python `str.strip()`: remove leading and trailing whitespace. -/
def pyStrip (s : Str) : Str :=
  ((s.dropWhile pyWhitespace).reverse.dropWhile pyWhitespace).reverse

/-- Python `str.lower()` (ASCII range). -/
def pyLower (s : Str) : Str := s.map Char.toLower

/-- Python `str.upper()` (ASCII range). -/
def pyUpper (s : Str) : Str := s.map Char.toUpper

/-- Python string comparison `x < y`: lexicographic on code points. -/
def strLtB : Str → Str → Bool
  | [], [] => false
  | [], _ :: _ => true
  | _ :: _, [] => false
  | c :: cs, d :: ds => if c = d then strLtB cs ds else decide (c < d)

/-- Character of `s` at index `i` (all uses are in bounds). -/
def charAt (s : Str) (i : Nat) : Char := s.getD i (Char.ofNat 0)

/-- Number of occurrences of `c` in `s`. -/
def countChar (s : Str) (c : Char) : Nat := (s.filter (fun d => d == c)).length

/-- CPython `SequenceMatcher.__chain_b` autojunk rule (`isjunk = None`):
for `len(b) ≥ 200`, elements occurring more than `len(b) // 100 + 1` times
are "popular" and removed from `b2j`, so the longest-match search skips them. -/
def bPopular (b : Str) (c : Char) : Bool :=
  decide (200 ≤ b.length) && decide (b.length / 100 + 1 < countChar b c)

/-- The `j2len` recurrence of `find_longest_match`, as a function of the
cell `(i, j)`: the length of the common run ending at `(i, j)` inside the
window (`0` when `b[j] ≠ a[i]`, when `j` is outside `[blo, bhi)`, or when
`b[j]` is popular).  CPython stores row `i` as `newj2len` and reads the
previous row with default `0` (`j2len.get(j-1, 0)`); the previous row
exists only for rows after `alo`, which is the `i + 1 ≤ alo ∨ j = 0`
guard here. -/
def runLen (a b : Str) (alo blo bhi : Nat) : Nat → Nat → Nat
  | 0, j =>
    if blo ≤ j ∧ j < bhi ∧ charAt b j = charAt a 0 ∧ bPopular b (charAt b j) = false
    then 1 else 0
  | i + 1, j =>
    if blo ≤ j ∧ j < bhi ∧ charAt b j = charAt a (i + 1) ∧ bPopular b (charAt b j) = false
    then (if i + 1 ≤ alo ∨ j = 0 then 0 else runLen a b alo blo bhi i (j - 1)) + 1
    else 0

/-- The positions CPython's inner loop visits at row `i`: the ascending
`j ∈ b2j[a[i]]` (occurrences of `a[i]` in `b`, popular elements removed),
skipping `j < blo` (`continue`) and stopping at `bhi` (`break`). -/
def flmPositions (a b : Str) (blo bhi i : Nat) : List Nat :=
  (List.range b.length).filter (fun j =>
    decide (blo ≤ j) && decide (j < bhi) && (charAt b j == charAt a i) &&
      !(bPopular b (charAt b j)))

/-- The dynamic-programming core of `find_longest_match`: scan `i` over
`[alo, ahi)` ascending and the matched `j` ascending (CPython's loop
order), replacing the best block `(i', j', size)` whenever a strictly
longer run is found (CPython's `if k > bestsize`), starting from
`(alo, blo, 0)`. -/
def flmCore (a b : Str) (alo ahi blo bhi : Nat) : Nat × Nat × Nat :=
  (List.range' alo (ahi - alo)).foldl
    (fun bst i =>
      (flmPositions a b blo bhi i).foldl
        (fun bst2 j =>
          let k := runLen a b alo blo bhi i j
          if bst2.2.2 < k then (i + 1 - k, j + 1 - k, k) else bst2)
        bst)
    (alo, blo, 0)

/-- CPython's first extension loop: extend the best block backwards over
non-junk equal elements (`isjunk = None`, so only the equality test remains;
with autojunk this can absorb popular elements the DP skipped). -/
def extendBack (a b : Str) (alo blo : Nat) : Nat → Nat × Nat × Nat → Nat × Nat × Nat
  | 0, t => t
  | fuel + 1, (bi, bj, k) =>
    if alo < bi ∧ blo < bj ∧ charAt a (bi - 1) = charAt b (bj - 1)
    then extendBack a b alo blo fuel (bi - 1, bj - 1, k + 1)
    else (bi, bj, k)

/-- CPython's second extension loop: extend the best block forwards over
non-junk equal elements. -/
def extendFwd (a b : Str) (ahi bhi : Nat) : Nat → Nat × Nat × Nat → Nat × Nat × Nat
  | 0, t => t
  | fuel + 1, (bi, bj, k) =>
    if bi + k < ahi ∧ bj + k < bhi ∧ charAt a (bi + k) = charAt b (bj + k)
    then extendFwd a b ahi bhi fuel (bi, bj, k + 1)
    else (bi, bj, k)

/-- `SequenceMatcher.find_longest_match` with `isjunk = None`: the DP search
followed by the two non-junk extension loops (the junk extension loops are
no-ops because the junk set is empty). -/
def find_longest_match (a b : Str) (alo ahi blo bhi : Nat) : Nat × Nat × Nat :=
  extendFwd a b ahi bhi bhi (extendBack a b alo blo ahi (flmCore a b alo ahi blo bhi))

/-- Total size `M` of the matching blocks (the Ratcliff/Obershelp recursion of
`get_matching_blocks`; the queue order and the adjacent-block merge do not
change the total).  `fuel` bounds the recursion depth; `ahi - alo + 1` always
suffices because both recursive windows are strictly smaller. -/
def matchSum (a b : Str) : Nat → Nat → Nat → Nat → Nat → Nat
  | 0, _, _, _, _ => 0
  | fuel + 1, alo, ahi, blo, bhi =>
    let m := find_longest_match a b alo ahi blo bhi
    if m.2.2 = 0 then 0
    else
      matchSum a b fuel alo m.1 blo m.2.1 + m.2.2 +
        matchSum a b fuel (m.1 + m.2.2) ahi (m.2.1 + m.2.2) bhi

/-- The pair `(M, T)` with `ratio() = 2*M/T`: total matched size and total
length, for `SequenceMatcher(None, x, w)` (`a = x`, `b = w`). -/
def ratioPair (x w : Str) : Nat × Nat :=
  (matchSum x w (x.length + 1) 0 x.length 0 w.length, x.length + w.length)

/-- The value `2*m/t` of a ratio pair, with `_calculate_ratio`'s convention
that a total length of `0` gives `1.0`. -/
def sval (p : Nat × Nat) : ℚ :=
  if p.2 = 0 then 1 else 2 * (p.1 : ℚ) / (p.2 : ℚ)

/-- `SequenceMatcher.ratio()` as an exact rational. -/
def ratioQ (x w : Str) : ℚ := sval (ratioPair x w)

/-- `ratio() ≥ 0.6`, by exact cross multiplication (`2*M/T ≥ 3/5`). -/
def passCutoff (x w : Str) : Bool :=
  let p := ratioPair x w
  decide (p.2 = 0) || decide (3 * p.2 ≤ 10 * p.1)

/-- Strict comparison of two ratios `2*m/t` (score of a candidate), with the
`t = 0` convention `ratio = 1`. -/
def scoreGt (p q : Nat × Nat) : Bool :=
  if p.2 = 0 then (if q.2 = 0 then false else decide (2 * q.1 < q.2))
  else if q.2 = 0 then decide (p.2 < 2 * p.1)
  else decide (q.1 * p.2 < p.1 * q.2)

/-- Equality of two ratios `2*m/t`, with the `t = 0` convention `ratio = 1`. -/
def scoreEq (p q : Nat × Nat) : Bool :=
  if p.2 = 0 then (if q.2 = 0 then true else decide (2 * q.1 = q.2))
  else if q.2 = 0 then decide (2 * p.1 = p.2)
  else decide (p.1 * q.2 = q.1 * p.2)

/-- Python tuple comparison `(score₁, x₁) > (score₂, x₂)` on the
`(ratio, candidate)` pairs collected by `get_close_matches`. -/
def pairGt (p q : (Nat × Nat) × Str) : Bool :=
  scoreGt p.1 q.1 || (scoreEq p.1 q.1 && strLtB q.2 p.2)

/-- One step of Python `max`: replace the current maximum only on strict
tuple `>`. -/
def maxStep (acc : Option ((Nat × Nat) × Str)) (p : (Nat × Nat) × Str) :
    Option ((Nat × Nat) × Str) :=
  match acc with
  | none => some p
  | some q => if pairGt p q then some p else some q

/-- Python `max` over the collected `(ratio, candidate)` pairs, scanning left
to right (the `n = 1` special case of `heapq.nlargest` used by
`get_close_matches(n=1)`). -/
def maxPair (result : List ((Nat × Nat) × Str)) : Option ((Nat × Nat) × Str) :=
  result.foldl maxStep none

/-- `difflib.get_close_matches(word, possibilities, n=1, cutoff=0.6)`:
collect the candidates whose ratio passes the cutoff, in iteration order,
then take the tuple maximum. -/
def getCloseMatches1 (word : Str) (possibilities : List Str) : Option Str :=
  let result := possibilities.filterMap
    (fun x => if passCutoff x word then some (ratioPair x word, x) else none)
  (maxPair result).map (fun p => p.2)

/-! ## Data model (`agent.py`, Data Models section) -/

/-- The `Product` dataclass.  The catalog key it is stored under is kept
separately (`PRODUCTS_DB` below); `category` is a `Str` because the code
lowercases and compares it. -/
structure Product where
  id : String
  name : String
  price : ℚ
  stock : Nat
  features : List String
  category : Str
  description : String
  rating : ℚ
  reviews : Nat
deriving Repr, DecidableEq

/-- The `CartItem` dataclass, with its computed `subtotal` field. -/
structure CartItem where
  product_id : String
  name : String
  unit_price : ℚ
  quantity : ℤ
  subtotal : ℚ
deriving Repr, DecidableEq

/-- `CartItem.__post_init__`: the subtotal is computed as unit price × quantity. -/
def CartItem.make (pid nm : String) (price : ℚ) (q : ℤ) : CartItem :=
  ⟨pid, nm, price, q, price * (q : ℚ)⟩

/-- The `Cart` dataclass. -/
structure Cart where
  items : List CartItem
  discount_code : Option Str
deriving Repr, DecidableEq

/-- `TAX_RATE = 0.08`. -/
def TAX_RATE : ℚ := 8 / 100

/-- `SHIPPING_THRESHOLD = 100`. -/
def SHIPPING_THRESHOLD : ℚ := 100

/-- `SHIPPING_COST = 10`. -/
def SHIPPING_COST : ℚ := 10

/-- `DISCOUNT_CODES`, in insertion order. -/
def DISCOUNT_CODES : List (Str × ℚ) :=
  [("WELCOME10".toList, 10 / 100), ("SAVE20".toList, 20 / 100), ("VIP30".toList, 30 / 100)]

/-- Dictionary lookup in `DISCOUNT_CODES`. -/
def lookupCode (c : Str) : Option ℚ :=
  (DISCOUNT_CODES.find? (fun p => decide (p.1 = c))).map (fun p => p.2)

/-- `Cart.get_subtotal`: sum of the stored line subtotals. -/
def Cart.get_subtotal (c : Cart) : ℚ := (c.items.map (fun it => it.subtotal)).sum

/-- `Cart.get_discount_amount`: the Python guard
`if self.discount_code and self.discount_code in DISCOUNT_CODES` is truthiness
on the optional string (so `None` and `""` both give no discount). -/
def Cart.get_discount_amount (c : Cart) : ℚ :=
  match c.discount_code with
  | none => 0
  | some k => if k ≠ [] ∧ (lookupCode k).isSome then c.get_subtotal * ((lookupCode k).getD 0) else 0

/-- `Cart.get_tax`: tax on the subtotal after discount. -/
def Cart.get_tax (c : Cart) : ℚ := (c.get_subtotal - c.get_discount_amount) * TAX_RATE

/-- `Cart.get_shipping`: free over the threshold, evaluated on the
pre-discount subtotal. -/
def Cart.get_shipping (c : Cart) : ℚ :=
  if SHIPPING_THRESHOLD ≤ c.get_subtotal then 0 else SHIPPING_COST

/-- `Cart.get_total`. -/
def Cart.get_total (c : Cart) : ℚ :=
  c.get_subtotal - c.get_discount_amount + c.get_tax + c.get_shipping

/-- Catalog entry `"gaming laptop pro"`. -/
def laptopProduct : Product :=
  { id := "LPG001", name := "Gaming Laptop Pro", price := 1500, stock := 10,
    features := ["RTX 4070", "32GB RAM", "1TB SSD", "144Hz Display"],
    category := "Computers".toList,
    description := "High-end gaming laptop for the most demanding games",
    rating := 4.8, reviews := 127 }

/-- Catalog entry `"mechanical rgb keyboard"`. -/
def keyboardProduct : Product :=
  { id := "TEC005", name := "Mechanical RGB Keyboard", price := 120, stock := 25,
    features := ["Cherry MX Switches", "Customizable RGB", "TKL", "USB-C"],
    category := "Peripherals".toList,
    description := "Premium mechanical keyboard with full RGB lighting",
    rating := 4.6, reviews := 89 }

/-- Catalog entry `"4k hdr monitor"`. -/
def monitorProduct : Product :=
  { id := "MON003", name := "4K HDR Monitor", price := 400, stock := 5,
    features := ["27 inches", "144Hz", "HDR10", "G-Sync Compatible"],
    category := "Monitors".toList,
    description := "4K gaming monitor with HDR for an immersive visual experience",
    rating := 4.9, reviews := 203 }

/-- Catalog entry `"gaming mouse pro"`. -/
def mouseProduct : Product :=
  { id := "MOU002", name := "Gaming Mouse Pro", price := 80, stock := 15,
    features := ["16000 DPI", "RGB", "8 programmable buttons", "Wireless"],
    category := "Peripherals".toList,
    description := "Professional gaming mouse with high-precision sensor",
    rating := 4.7, reviews := 156 }

/-- Catalog entry `"7.1 headphones"`. -/
def headphonesProduct : Product :=
  { id := "AUR004", name := "Gaming Headphones 7.1", price := 150, stock := 8,
    features := ["7.1 Surround Sound", "Retractable microphone", "RGB", "Noise cancellation"],
    category := "Audio".toList,
    description := "Gaming headphones with surround sound for maximum immersion",
    rating := 4.5, reviews := 94 }

/-- `PRODUCTS_DB`, as an association list in the dict's insertion order. -/
def PRODUCTS_DB : List (Str × Product) := [
  ("gaming laptop pro".toList, laptopProduct),
  ("mechanical rgb keyboard".toList, keyboardProduct),
  ("4k hdr monitor".toList, monitorProduct),
  ("gaming mouse pro".toList, mouseProduct),
  ("7.1 headphones".toList, headphonesProduct)]

/-! ## Helper functions and tools -/

/-- `find_product_fuzzy`: case-insensitive exact match against the catalog
keys, then `get_close_matches(name_lower, keys, n=1, cutoff=0.6)`; on a fuzzy
hit the product is looked up under the matched key. -/
def find_product_fuzzy (db : List (Str × Product)) (name : Str) : Option (Str × Product) :=
  let q := pyLower (pyStrip name)
  match db.find? (fun kp => decide (kp.1 = q)) with
  | some kp => some (q, kp.2)
  | none =>
    match getCloseMatches1 q (db.map (fun kp => kp.1)) with
    | some m =>
      match db.find? (fun kp => decide (kp.1 = m)) with
      | some kp => some (m, kp.2)
      | none => none
    | none => none

/-- `get_cart_item_by_product`: first cart line with the given product id. -/
def get_cart_item_by_product (c : Cart) (pid : String) : Option CartItem :=
  c.items.find? (fun it => decide (it.product_id = pid))

/-- `current_quantity = existing_item.quantity if existing_item else 0`
(the quantity of the product already in the cart). -/
def cartQty (c : Cart) (pid : String) : ℤ :=
  match get_cart_item_by_product c pid with
  | some it => it.quantity
  | none => 0

/-- The process state the tools close over: the catalog, the single shared
cart and the search history.  The catalog is carried in the state so that its
immutability is a provable statement rather than a modelling artifact. -/
structure AgentState where
  productsDb : List (Str × Product)
  cart : Cart
  searchHistory : List Str
deriving Repr

/-- The state at process start: the fixed catalog, an empty cart, no history. -/
def initialState : AgentState := ⟨PRODUCTS_DB, ⟨[], none⟩, []⟩

/-- The `"status"` values occurring in the tools' result dicts. -/
inductive ToolStatus
  | success
  | error
  | empty
  | not_found
deriving Repr, DecidableEq

/-- The result dict of a tool call.  `status` is always present; every other
key is optional (`none` models the key being absent from the dict).  Message
texts are kept close to the source but numeric interpolations (formatted
prices and counts) are elided, since no claim depends on message contents.
Result keys no claim mentions (e.g. `view_cart`'s per-item detail) are not
modelled. -/
structure ToolResult where
  status : ToolStatus
  message : Option String := none
  suggestions : Option (List String) := none
  foundProduct : Option String := none
  currentStock : Option ℤ := none
  inCart : Option ℤ := none
  available : Option ℤ := none
  availableCodes : Option (List Str) := none
  availableCategories : Option (List Str) := none
  recommendations : Option (List String) := none
  removedQuantity : Option ℤ := none
  remainingQuantity : Option ℤ := none
  removedProducts : Option Nat := none
  removedUnits : Option ℤ := none
  totalProducts : Option Nat := none
  totalUnits : Option ℤ := none
  totalAmount : Option ℚ := none
  history : Option (List Str) := none
  totalSearches : Option Nat := none
deriving Repr

/-- The suggestion lines built from the first three catalog entries
(`search_product_by_name`'s not-found branch; price formatting elided). -/
def format_suggestions (db : List (Str × Product)) : List String :=
  (db.take 3).map (fun kp => "• " ++ kp.2.name)

/-- `search_product_by_name`: record the query in the history, then fuzzy
search; found products give `success`, otherwise `not_found` with suggestions. -/
def search_product_by_name (product_name : Str) (s : AgentState) : ToolResult × AgentState :=
  let s' := { s with searchHistory := s.searchHistory ++ [product_name] }
  match find_product_fuzzy s.productsDb product_name with
  | some kp =>
    ({ status := .success, foundProduct := some kp.2.name,
       message := some ("✅ Product found: " ++ kp.2.name) }, s')
  | none =>
    ({ status := .not_found, message := some "❌ Product not found.",
       suggestions := some (format_suggestions s.productsDb) }, s')

/-- Merge a quantity into the first cart line with the given product id,
recomputing its subtotal (the mutation of `existing_item` in `add_to_cart`). -/
def addQtyFirst (items : List CartItem) (pid : String) (q : ℤ) : List CartItem :=
  match items with
  | [] => []
  | it :: rest =>
    if it.product_id = pid then
      { it with quantity := it.quantity + q,
                subtotal := it.unit_price * ((it.quantity + q : ℤ) : ℚ) } :: rest
    else it :: addQtyFirst rest pid q

/-- `add_to_cart`.  The `isinstance(quantity, int)` check is modelled by the
type `ℤ`; the `quantity <= 0` rejection remains.  Its unresolved-product error
carries no suggestions key. -/
def add_to_cart (product : Str) (quantity : ℤ) (s : AgentState) : ToolResult × AgentState :=
  if quantity ≤ 0 then
    ({ status := .error, message := some "❌ Quantity must be a positive integer." }, s)
  else
    match find_product_fuzzy s.productsDb product with
    | none =>
      ({ status := .error,
         message := some "❌ Couldn't find product. Use search_product to see options." }, s)
    | some kp =>
      let info := kp.2
      let current : ℤ := cartQty s.cart info.id
      if (info.stock : ℤ) < current + quantity then
        ({ status := .error, message := some "❌ Insufficient stock.",
           currentStock := some (info.stock : ℤ), inCart := some current,
           available := some ((info.stock : ℤ) - current) }, s)
      else
        let items' := match get_cart_item_by_product s.cart info.id with
          | some _ => addQtyFirst s.cart.items info.id quantity
          | none => s.cart.items ++ [CartItem.make info.id info.name info.price quantity]
        ({ status := .success, message := some "✅ Added to cart." },
         { s with cart := { s.cart with items := items' } })

/-- `view_cart`.  Note its success dict has no `"message"` key. -/
def view_cart (s : AgentState) : ToolResult × AgentState :=
  if s.cart.items = [] then
    ({ status := .empty, message := some "🛒 Cart is empty." }, s)
  else
    ({ status := .success, totalProducts := some s.cart.items.length,
       totalUnits := some ((s.cart.items.map (fun it => it.quantity)).sum) }, s)

/-- `apply_discount`: empty-cart check, then trim + uppercase, then the
table lookup; a valid code is stored, replacing any previous one. -/
def apply_discount (code : Str) (s : AgentState) : ToolResult × AgentState :=
  if s.cart.items = [] then
    ({ status := .error,
       message := some "❌ Cart is empty. Add products before applying discounts." }, s)
  else
    let cu := pyUpper (pyStrip code)
    if (lookupCode cu).isSome then
      ({ status := .success, message := some "✅ Discount code applied." },
       { s with cart := { s.cart with discount_code := some cu } })
    else
      ({ status := .error, message := some "❌ Code is not valid.",
         availableCodes := some (DISCOUNT_CODES.map (fun p => p.1)) }, s)

/-- Remove the first cart line with the given product id
(`cart.items.remove(item)` where `item` is the first line with that id). -/
def removeFirstPid (items : List CartItem) (pid : String) : List CartItem :=
  match items with
  | [] => []
  | it :: rest => if it.product_id = pid then rest else it :: removeFirstPid rest pid

/-- Decrement the first cart line with the given product id by `n`,
recomputing its subtotal (the partial-removal mutation). -/
def decQtyFirst (items : List CartItem) (pid : String) (n : ℤ) : List CartItem :=
  match items with
  | [] => []
  | it :: rest =>
    if it.product_id = pid then
      { it with quantity := it.quantity - n,
                subtotal := it.unit_price * ((it.quantity - n : ℤ) : ℚ) } :: rest
    else it :: decQtyFirst rest pid n

/-- `remove_from_cart`: the `quantity is None or quantity >= item.quantity`
test removes the line entirely; a smaller positive quantity decrements;
otherwise error. -/
def remove_from_cart (product : Str) (quantity : Option ℤ) (s : AgentState) :
    ToolResult × AgentState :=
  match find_product_fuzzy s.productsDb product with
  | none => ({ status := .error, message := some "❌ Product not found in cart." }, s)
  | some kp =>
    let info := kp.2
    match get_cart_item_by_product s.cart info.id with
    | none => ({ status := .error, message := some "❌ Product is not in the cart." }, s)
    | some item =>
      match quantity with
      | none =>
        ({ status := .success, message := some "✅ Completely removed from cart.",
           removedQuantity := some item.quantity },
         { s with cart := { s.cart with items := removeFirstPid s.cart.items info.id } })
      | some n =>
        if item.quantity ≤ n then
          ({ status := .success, message := some "✅ Completely removed from cart.",
             removedQuantity := some item.quantity },
           { s with cart := { s.cart with items := removeFirstPid s.cart.items info.id } })
        else if 0 < n then
          ({ status := .success, message := some "✅ Removed units from cart.",
             removedQuantity := some n, remainingQuantity := some (item.quantity - n) },
           { s with cart := { s.cart with items := decQtyFirst s.cart.items info.id n } })
        else
          ({ status := .error, message := some "❌ Quantity must be greater than zero." }, s)

/-- `clear_cart`: empties the items and resets the discount code. -/
def clear_cart (s : AgentState) : ToolResult × AgentState :=
  ({ status := .success, message := some "🧹 Cart cleared successfully.",
     removedProducts := some s.cart.items.length,
     removedUnits := some ((s.cart.items.map (fun it => it.quantity)).sum) },
   { s with cart := { items := [], discount_code := none } })

/-- `calculate_total`. -/
def calculate_total (s : AgentState) : ToolResult × AgentState :=
  if s.cart.items = [] then
    ({ status := .empty, message := some "Cart is empty." }, s)
  else
    ({ status := .success, message := some "💳 Total to pay.",
       totalAmount := some s.cart.get_total }, s)

/-- The sort key comparison of `recommend_products`:
`products.sort(key=lambda p: (p.rating, p.reviews), reverse=True)`.
`recLe a b` means `a` may come before `b` in the descending order. -/
def recLe (a b : Product) : Bool :=
  decide (b.rating < a.rating ∨ (b.rating = a.rating ∧ b.reviews ≤ a.reviews))

/-- Insert `x` after every element that may come before it (stable insertion). -/
def insertStable (le : Product → Product → Bool) (x : Product) : List Product → List Product
  | [] => [x]
  | y :: ys => if le y x then y :: insertStable le x ys else x :: y :: ys

/-- Stable sort (insertion sort).  Python's `list.sort` is stable and
`reverse=True` keeps equal-key elements in their original order, so any
stable sort under `recLe` computes the same list. -/
def stableSort (le : Product → Product → Bool) (l : List Product) : List Product :=
  l.foldl (fun acc x => insertStable le x acc) []

/-- `list(set(p.category for p in PRODUCTS_DB.values()))`.  CPython's set
iteration order is unspecified; the model fixes one order (`List.dedup`). -/
def categoriesOf (db : List (Str × Product)) : List Str :=
  (db.map (fun kp => kp.2.category)).dedup

/-- The success payload of `recommend_products`: sort the chosen products by
(rating, reviews) descending and keep the first three names. -/
def recommendTop (products : List Product) : ToolResult :=
  { status := .success,
    recommendations := some (((stableSort recLe products).take 3).map (fun p => p.name)),
    message := some "🌟 Top recommended products" }

/-- `recommend_products`: the `if category:` guard is Python truthiness, so
`None` and `""` both mean "no category filter". -/
def recommend_products (category : Option Str) (s : AgentState) : ToolResult × AgentState :=
  let products := s.productsDb.map (fun kp => kp.2)
  match category with
  | some c =>
    if c = [] then (recommendTop products, s)
    else
      let filtered := products.filter (fun p => decide (pyLower p.category = pyLower c))
      if filtered = [] then
        ({ status := .error, message := some "No products in this category.",
           availableCategories := some (categoriesOf s.productsDb) }, s)
      else (recommendTop filtered, s)
  | none => (recommendTop products, s)

/-- `show_search_history`: the last five searches (`search_history[-5:]`).
Note its success dict has no `"message"` key. -/
def show_search_history (s : AgentState) : ToolResult × AgentState :=
  if s.searchHistory = [] then
    ({ status := .empty, message := some "No recent searches." }, s)
  else
    ({ status := .success,
       history := some (s.searchHistory.drop (s.searchHistory.length - 5)),
       totalSearches := some s.searchHistory.length }, s)

/-- The tool-call boundary: one constructor per exposed tool. -/
inductive ToolCall
  | searchProduct (name : Str)
  | addToCart (product : Str) (quantity : ℤ)
  | viewCart
  | applyDiscount (code : Str)
  | removeFromCart (product : Str) (quantity : Option ℤ)
  | clearCart
  | calculateTotal
  | recommendProducts (category : Option Str)
  | showHistory
deriving DecidableEq

/-- Dispatch a tool call against the shared state. -/
def runTool : ToolCall → AgentState → ToolResult × AgentState
  | .searchProduct n, s => search_product_by_name n s
  | .addToCart p q, s => add_to_cart p q s
  | .viewCart, s => view_cart s
  | .applyDiscount c, s => apply_discount c s
  | .removeFromCart p q, s => remove_from_cart p q s
  | .clearCart, s => clear_cart s
  | .calculateTotal, s => calculate_total s
  | .recommendProducts c, s => recommend_products c s
  | .showHistory, s => show_search_history s

/-- The states reachable from process start through tool calls. -/
inductive Reach : AgentState → Prop
  | init : Reach initialState
  | step (call : ToolCall) (s : AgentState) : Reach s → Reach (runTool call s).2

/-! ## Order lemmas for the fuzzy-match selection -/

theorem strLtB_irrefl (x : Str) : strLtB x x = false := by
  induction x with
  | nil => rfl
  | cons c cs ih => simp [strLtB, ih]

theorem strLtB_trans : ∀ {x y z : Str},
    strLtB x y = true → strLtB y z = true → strLtB x z = true := by
  intro x
  induction x with
  | nil =>
    intro y z h1 h2
    cases y with
    | nil => simp [strLtB] at h1
    | cons d ds =>
      cases z with
      | nil => simp [strLtB] at h2
      | cons e es => rfl
  | cons c cs ih =>
    intro y z h1 h2
    cases y with
    | nil => simp [strLtB] at h1
    | cons d ds =>
      cases z with
      | nil => simp [strLtB] at h2
      | cons e es =>
        simp only [strLtB] at h1 h2 ⊢
        by_cases hcd : c = d
        · subst hcd
          rw [if_pos rfl] at h1
          by_cases hce : c = e
          · subst hce
            rw [if_pos rfl] at h2 ⊢
            exact ih h1 h2
          · rw [if_neg hce] at h2 ⊢
            exact h2
        · rw [if_neg hcd] at h1
          have hlt1 : c < d := of_decide_eq_true h1
          by_cases hde : d = e
          · have hce : c < e := hde ▸ hlt1
            rw [if_neg (ne_of_lt hce)]
            exact decide_eq_true hce
          · rw [if_neg hde] at h2
            have hlt2 : d < e := of_decide_eq_true h2
            have hce : c < e := lt_trans hlt1 hlt2
            rw [if_neg (ne_of_lt hce)]
            exact decide_eq_true hce

theorem strLtB_connex : ∀ {x y : Str}, x ≠ y → strLtB x y = true ∨ strLtB y x = true := by
  intro x
  induction x with
  | nil =>
    intro y h
    cases y with
    | nil => exact absurd rfl h
    | cons d ds => left; rfl
  | cons c cs ih =>
    intro y h
    cases y with
    | nil => right; rfl
    | cons d ds =>
      by_cases hcd : c = d
      · subst hcd
        have hne : cs ≠ ds := fun hh => h (by rw [hh])
        rcases ih hne with h1 | h1
        · left; simp [strLtB, h1]
        · right; simp [strLtB, h1]
      · rcases lt_or_gt_of_ne hcd with hlt | hgt
        · left; simp [strLtB, hcd, hlt]
        · right; simp [strLtB, Ne.symm hcd, hgt]

theorem scoreGt_iff (p q : Nat × Nat) : scoreGt p q = true ↔ sval q < sval p := by
  rcases p with ⟨m1, t1⟩
  rcases q with ⟨m2, t2⟩
  simp only [scoreGt, sval]
  by_cases h1 : t1 = 0
  · by_cases h2 : t2 = 0
    · simp [h1, h2]
    · have ht2 : (0 : ℚ) < (t2 : ℚ) := by exact_mod_cast Nat.pos_of_ne_zero h2
      simp only [h1, h2, eq_self_iff_true, if_true, if_false, ite_true, ite_false,
        decide_eq_true_eq]
      rw [div_lt_one ht2]
      constructor
      · intro h; exact_mod_cast h
      · intro h; exact_mod_cast h
  · by_cases h2 : t2 = 0
    · have ht1 : (0 : ℚ) < (t1 : ℚ) := by exact_mod_cast Nat.pos_of_ne_zero h1
      simp only [h1, h2, eq_self_iff_true, if_true, if_false, ite_true, ite_false,
        decide_eq_true_eq]
      rw [one_lt_div ht1]
      constructor
      · intro h; exact_mod_cast h
      · intro h; exact_mod_cast h
    · have ht1 : (0 : ℚ) < (t1 : ℚ) := by exact_mod_cast Nat.pos_of_ne_zero h1
      have ht2 : (0 : ℚ) < (t2 : ℚ) := by exact_mod_cast Nat.pos_of_ne_zero h2
      simp only [h1, h2, if_false, ite_false, decide_eq_true_eq]
      rw [div_lt_div_iff₀ ht2 ht1,
        (by ring : (2 : ℚ) * (m2 : ℚ) * (t1 : ℚ) = 2 * ((m2 : ℚ) * (t1 : ℚ))),
        (by ring : (2 : ℚ) * (m1 : ℚ) * (t2 : ℚ) = 2 * ((m1 : ℚ) * (t2 : ℚ))),
        mul_lt_mul_left (by norm_num : (0 : ℚ) < 2)]
      constructor
      · intro h; exact_mod_cast h
      · intro h; exact_mod_cast h

theorem scoreEq_iff (p q : Nat × Nat) : scoreEq p q = true ↔ sval p = sval q := by
  rcases p with ⟨m1, t1⟩
  rcases q with ⟨m2, t2⟩
  simp only [scoreEq, sval]
  by_cases h1 : t1 = 0
  · by_cases h2 : t2 = 0
    · simp [h1, h2]
    · have ht2 : (t2 : ℚ) ≠ 0 := Nat.cast_ne_zero.mpr h2
      simp only [h1, h2, eq_self_iff_true, if_true, if_false, ite_true, ite_false,
        decide_eq_true_eq]
      rw [eq_div_iff ht2, one_mul]
      constructor
      · intro h; exact_mod_cast h.symm
      · intro h; exact_mod_cast h.symm
  · by_cases h2 : t2 = 0
    · have ht1 : (t1 : ℚ) ≠ 0 := Nat.cast_ne_zero.mpr h1
      simp only [h1, h2, eq_self_iff_true, if_true, if_false, ite_true, ite_false,
        decide_eq_true_eq]
      rw [div_eq_iff ht1, one_mul]
      constructor
      · intro h; exact_mod_cast h
      · intro h; exact_mod_cast h
    · have ht1 : (t1 : ℚ) ≠ 0 := Nat.cast_ne_zero.mpr h1
      have ht2 : (t2 : ℚ) ≠ 0 := Nat.cast_ne_zero.mpr h2
      simp only [h1, h2, if_false, ite_false, decide_eq_true_eq]
      rw [div_eq_div_iff ht1 ht2,
        (by ring : (2 : ℚ) * (m1 : ℚ) * (t2 : ℚ) = 2 * ((m1 : ℚ) * (t2 : ℚ))),
        (by ring : (2 : ℚ) * (m2 : ℚ) * (t1 : ℚ) = 2 * ((m2 : ℚ) * (t1 : ℚ))),
        mul_right_inj' (by norm_num : (2 : ℚ) ≠ 0)]
      constructor
      · intro h; exact_mod_cast h
      · intro h; exact_mod_cast h

/-- The strict lexicographic order Python's tuple comparison realises on
`(ratio, candidate)` pairs. -/
def PairLt (p q : (Nat × Nat) × Str) : Prop :=
  sval p.1 < sval q.1 ∨ (sval p.1 = sval q.1 ∧ strLtB p.2 q.2 = true)

theorem pairGt_iff (p q : (Nat × Nat) × Str) : pairGt p q = true ↔ PairLt q p := by
  simp only [pairGt, PairLt, Bool.or_eq_true, Bool.and_eq_true, scoreGt_iff, scoreEq_iff]
  constructor
  · rintro (h | ⟨h1, h2⟩)
    · exact Or.inl h
    · exact Or.inr ⟨h1.symm, h2⟩
  · rintro (h | ⟨h1, h2⟩)
    · exact Or.inl h
    · exact Or.inr ⟨h1.symm, h2⟩

theorem pairGt_irrefl (p : (Nat × Nat) × Str) : pairGt p p = false := by
  cases h : pairGt p p
  · rfl
  · exfalso
    rw [pairGt_iff, PairLt] at h
    rcases h with h | ⟨h1, h2⟩
    · exact lt_irrefl _ h
    · rw [strLtB_irrefl] at h2
      exact Bool.false_ne_true h2

theorem pairLt_trans {p q r : (Nat × Nat) × Str} (h1 : PairLt p q) (h2 : PairLt q r) :
    PairLt p r := by
  rcases h1 with h1 | ⟨h1, h1s⟩ <;> rcases h2 with h2 | ⟨h2, h2s⟩
  · exact Or.inl (lt_trans h1 h2)
  · exact Or.inl (h2 ▸ h1)
  · exact Or.inl (h1 ▸ h2)
  · exact Or.inr ⟨h1.trans h2, strLtB_trans h1s h2s⟩

theorem pairGt_trans {p q r : (Nat × Nat) × Str}
    (h1 : pairGt p q = true) (h2 : pairGt q r = true) : pairGt p r = true := by
  rw [pairGt_iff] at *
  exact pairLt_trans h2 h1

/-- If `p` is not above `q`, anything below `p` is below `q`. -/
theorem pairGt_false_trans {p q m : (Nat × Nat) × Str}
    (h1 : pairGt p q = false) (h2 : pairGt p m = true) : pairGt q m = true := by
  rw [pairGt_iff] at h2 ⊢
  have hn : ¬ PairLt q p := by
    rw [← pairGt_iff, h1]
    exact Bool.false_ne_true
  rw [PairLt, not_or, not_and] at hn
  have hle : sval p.1 ≤ sval q.1 := not_lt.mp hn.1
  rcases h2 with h2 | ⟨hsv, hk⟩
  · exact Or.inl (lt_of_lt_of_le h2 hle)
  · rcases lt_or_eq_of_le hle with hlt | heq
    · refine Or.inl ?_
      rw [hsv]
      exact hlt
    · by_cases hpq : p.2 = q.2
      · refine Or.inr ⟨hsv.trans heq, ?_⟩
        rw [← hpq]
        exact hk
      · rcases strLtB_connex hpq with hx | hx
        · exact Or.inr ⟨hsv.trans heq, strLtB_trans hk hx⟩
        · exact absurd hx (hn.2 heq.symm)

/-! ## The Python `max` over collected candidates -/

theorem maxFold_spec (L : List ((Nat × Nat) × Str)) :
    ∀ (acc : Option ((Nat × Nat) × Str)) (m), L.foldl maxStep acc = some m →
      (m ∈ L ∨ acc = some m) ∧ (∀ p ∈ L, pairGt p m = false) ∧
        (∀ q, acc = some q → pairGt q m = false) := by
  induction L with
  | nil =>
    intro acc m h
    simp only [List.foldl_nil] at h
    refine ⟨Or.inr h, by simp, ?_⟩
    intro q hq
    rw [hq] at h
    cases h
    exact pairGt_irrefl m
  | cons p L ih =>
    intro acc m h
    rw [List.foldl_cons] at h
    obtain ⟨hmem, hall, hacc⟩ := ih (maxStep acc p) m h
    have hstep : ∀ q, maxStep acc p = some q → q = p ∨ acc = some q := by
      intro q hq
      cases acc with
      | none =>
        cases hq
        exact Or.inl rfl
      | some r =>
        simp only [maxStep] at hq
        by_cases hgt : pairGt p r = true
        · rw [if_pos hgt] at hq
          cases hq
          exact Or.inl rfl
        · rw [if_neg hgt] at hq
          exact Or.inr hq
    have hpm : pairGt p m = false := by
      cases hq : maxStep acc p with
      | none =>
        cases acc with
        | none => simp [maxStep] at hq
        | some r =>
          simp only [maxStep] at hq
          by_cases hgt : pairGt p r = true
          · rw [if_pos hgt] at hq; cases hq
          · rw [if_neg hgt] at hq; cases hq
      | some q0 =>
        have hq0 := hacc q0 hq
        rcases hstep q0 hq with hq1 | hq1
        · rw [← hq1]; exact hq0
        · cases acc with
          | none => cases hq1
          | some r =>
            have hr : r = q0 := by cases hq1; rfl
            simp only [maxStep] at hq
            by_cases hgt : pairGt p r = true
            · rw [if_pos hgt] at hq
              cases hq
              exact hq0
            · cases hpmv : pairGt p m with
              | false => rfl
              | true =>
                exfalso
                have : pairGt r m = true :=
                  pairGt_false_trans (Bool.eq_false_iff.mpr hgt) hpmv
                rw [hr] at this
                rw [this] at hq0
                cases hq0
    refine ⟨?_, ?_, ?_⟩
    · rcases hmem with hmem | hmem
      · exact Or.inl (List.mem_cons_of_mem _ hmem)
      · rcases hstep m hmem with h1 | h1
        · exact Or.inl (h1 ▸ List.mem_cons_self p L)
        · exact Or.inr h1
    · intro x hx
      rcases List.mem_cons.mp hx with hx | hx
      · rw [hx]; exact hpm
      · exact hall x hx
    · intro q hq
      cases acc with
      | none => cases hq
      | some r =>
        have hr : r = q := by cases hq; rfl
        subst hr
        simp only [maxStep] at *
        by_cases hgt : pairGt p r = true
        · have hpm2 : pairGt p m = false := hpm
          cases hqm : pairGt r m with
          | false => rfl
          | true =>
            exfalso
            have : pairGt p m = true := pairGt_trans hgt hqm
            rw [this] at hpm2
            cases hpm2
        · exact hacc r (by rw [if_neg hgt])

theorem maxPair_some {L : List ((Nat × Nat) × Str)} {m} (h : maxPair L = some m) :
    m ∈ L ∧ ∀ p ∈ L, pairGt p m = false := by
  obtain ⟨hmem, hall, _⟩ := maxFold_spec L none m h
  rcases hmem with hmem | hmem
  · exact ⟨hmem, hall⟩
  · cases hmem

theorem maxFold_ne_none (L : List ((Nat × Nat) × Str)) :
    ∀ (acc : Option ((Nat × Nat) × Str)), L.foldl maxStep acc = none →
      acc = none ∧ L = [] := by
  induction L with
  | nil => intro acc h; exact ⟨h, rfl⟩
  | cons p L ih =>
    intro acc h
    rw [List.foldl_cons] at h
    obtain ⟨hstep, _⟩ := ih (maxStep acc p) h
    exfalso
    cases acc with
    | none => simp [maxStep] at hstep
    | some r =>
      simp only [maxStep] at hstep
      by_cases hgt : pairGt p r = true
      · rw [if_pos hgt] at hstep; cases hstep
      · rw [if_neg hgt] at hstep; cases hstep

/-! ## Characterisation of `get_close_matches(n=1)` and `find_product_fuzzy` -/

theorem passCutoff_iff (x w : Str) : passCutoff x w = true ↔ 3 / 5 ≤ ratioQ x w := by
  unfold passCutoff ratioQ
  rcases hp : ratioPair x w with ⟨m, t⟩
  simp only [hp, Bool.or_eq_true, decide_eq_true_eq, sval]
  by_cases ht : t = 0
  · simp only [ht, eq_self_iff_true, if_true, ite_true, true_or, true_iff]
    norm_num
  · have ht0 : (0 : ℚ) < (t : ℚ) := by exact_mod_cast Nat.pos_of_ne_zero ht
    simp only [ht, if_false, ite_false, false_or]
    rw [div_le_div_iff₀ (by norm_num : (0 : ℚ) < 5) ht0,
      (by ring : (2 : ℚ) * (m : ℚ) * 5 = 10 * (m : ℚ))]
    constructor
    · intro h2; exact_mod_cast h2
    · intro h2; exact_mod_cast h2

theorem gcm_none {w : Str} {poss : List Str} (h : getCloseMatches1 w poss = none) :
    ∀ x ∈ poss, passCutoff x w = false := by
  unfold getCloseMatches1 at h
  rw [Option.map_eq_none'] at h
  obtain ⟨-, hnil⟩ := maxFold_ne_none _ none h
  intro x hx
  have := List.filterMap_eq_nil_iff.mp hnil x hx
  by_cases hpass : passCutoff x w = true
  · rw [if_pos hpass] at this
    cases this
  · exact Bool.eq_false_iff.mpr hpass

theorem gcm_some {w : Str} {poss : List Str} {m : Str} (h : getCloseMatches1 w poss = some m) :
    m ∈ poss ∧ passCutoff m w = true ∧
      ∀ x ∈ poss, passCutoff x w = true →
        pairGt (ratioPair x w, x) (ratioPair m w, m) = false := by
  unfold getCloseMatches1 at h
  rw [Option.map_eq_some'] at h
  obtain ⟨pr, hpr, hm⟩ := h
  obtain ⟨hmem, hall⟩ := maxPair_some hpr
  rw [List.mem_filterMap] at hmem
  obtain ⟨x, hx, hfx⟩ := hmem
  by_cases hpass : passCutoff x w = true
  · rw [if_pos hpass] at hfx
    have hpr2 : pr = (ratioPair x w, x) := by cases hfx; rfl
    have hxm : x = m := by rw [hpr2] at hm; exact hm
    subst hxm
    refine ⟨hx, hpass, ?_⟩
    intro y hy hypass
    rw [← hpr2]
    apply hall
    rw [List.mem_filterMap]
    exact ⟨y, hy, by rw [if_pos hypass]⟩
  · rw [if_neg hpass] at hfx
    cases hfx

theorem fpf_mem {db : List (Str × Product)} {q : Str} {kp : Str × Product}
    (h : find_product_fuzzy db q = some kp) : kp ∈ db := by
  unfold find_product_fuzzy at h
  cases hf : db.find? (fun p => decide (p.1 = pyLower (pyStrip q))) with
  | some kp0 =>
    simp only [hf] at h
    have hp := List.find?_some hf
    simp only [decide_eq_true_eq] at hp
    have hmem := List.mem_of_find?_eq_some hf
    cases h
    rw [← hp, Prod.mk.eta]
    exact hmem
  | none =>
    simp only [hf] at h
    cases hg : getCloseMatches1 (pyLower (pyStrip q)) (db.map (fun p => p.1)) with
    | none =>
      simp only [hg] at h
      cases h
    | some m =>
      simp only [hg] at h
      cases hf2 : db.find? (fun p => decide (p.1 = m)) with
      | none =>
        simp only [hf2] at h
        cases h
      | some kp0 =>
        simp only [hf2] at h
        have hp := List.find?_some hf2
        simp only [decide_eq_true_eq] at hp
        have hmem := List.mem_of_find?_eq_some hf2
        cases h
        rw [← hp, Prod.mk.eta]
        exact hmem

/-! ## Frame lemmas: what each tool leaves untouched -/

theorem search_frame (n : Str) (s : AgentState) :
    (search_product_by_name n s).2.productsDb = s.productsDb ∧
    (search_product_by_name n s).2.cart = s.cart ∧
    (search_product_by_name n s).2.searchHistory = s.searchHistory ++ [n] := by
  unfold search_product_by_name
  cases h : find_product_fuzzy s.productsDb n <;> exact ⟨rfl, rfl, rfl⟩

theorem add_frame (p : Str) (q : ℤ) (s : AgentState) :
    (add_to_cart p q s).2.productsDb = s.productsDb ∧
    (add_to_cart p q s).2.searchHistory = s.searchHistory ∧
    (add_to_cart p q s).2.cart.discount_code = s.cart.discount_code := by
  simp only [add_to_cart]
  repeat' split
  all_goals exact ⟨rfl, rfl, rfl⟩

theorem view_frame (s : AgentState) : (view_cart s).2 = s := by
  unfold view_cart
  split <;> rfl

theorem applyd_frame (c : Str) (s : AgentState) :
    (apply_discount c s).2.productsDb = s.productsDb ∧
    (apply_discount c s).2.searchHistory = s.searchHistory ∧
    (apply_discount c s).2.cart.items = s.cart.items := by
  simp only [apply_discount]
  repeat' split
  all_goals exact ⟨rfl, rfl, rfl⟩

theorem remove_frame (p : Str) (q : Option ℤ) (s : AgentState) :
    (remove_from_cart p q s).2.productsDb = s.productsDb ∧
    (remove_from_cart p q s).2.searchHistory = s.searchHistory ∧
    (remove_from_cart p q s).2.cart.discount_code = s.cart.discount_code := by
  simp only [remove_from_cart]
  repeat' split
  all_goals exact ⟨rfl, rfl, rfl⟩

theorem clear_frame (s : AgentState) :
    (clear_cart s).2 = ⟨s.productsDb, ⟨[], none⟩, s.searchHistory⟩ := rfl

theorem calc_frame (s : AgentState) : (calculate_total s).2 = s := by
  unfold calculate_total
  split <;> rfl

theorem recommend_frame (c : Option Str) (s : AgentState) :
    (recommend_products c s).2 = s := by
  simp only [recommend_products]
  repeat' split
  all_goals rfl

theorem history_frame (s : AgentState) : (show_search_history s).2 = s := by
  unfold show_search_history
  split <;> rfl

/-! ## The cart invariant along reachable states -/

/-- The per-line invariant: positive quantity, consistent subtotal, and the
denormalised price comes from a catalog entry with this product id. -/
def ItemInv (it : CartItem) : Prop :=
  1 ≤ it.quantity ∧ it.subtotal = it.unit_price * (it.quantity : ℚ) ∧
    ∃ kp, kp ∈ PRODUCTS_DB ∧ kp.2.id = it.product_id ∧ kp.2.price = it.unit_price

/-- The cart invariant: every line is sound, product ids are unique, and any
applied discount code is a valid (hence nonempty) code. -/
def CartInv (c : Cart) : Prop :=
  (∀ it ∈ c.items, ItemInv it) ∧
    (c.items.map (fun it => it.product_id)).Nodup ∧
    ∀ k, c.discount_code = some k → (lookupCode k).isSome ∧ k ≠ []

/-- The state invariant: the catalog is the fixed catalog and the cart is sound. -/
def StateInv (s : AgentState) : Prop := s.productsDb = PRODUCTS_DB ∧ CartInv s.cart

theorem lookupCode_ne_nil {k : Str} (h : (lookupCode k).isSome) : k ≠ [] := by
  intro hk
  subst hk
  simp [lookupCode, DISCOUNT_CODES] at h

theorem addQtyFirst_map_id (items : List CartItem) (pid : String) (q : ℤ) :
    (addQtyFirst items pid q).map (fun it => it.product_id) =
      items.map (fun it => it.product_id) := by
  induction items with
  | nil => rfl
  | cons hd rest ih =>
    by_cases h : hd.product_id = pid
    · simp [addQtyFirst, h]
    · simp [addQtyFirst, h, ih]

theorem addQtyFirst_inv {items : List CartItem} {pid : String} {q : ℤ} (hq : 1 ≤ q)
    (hinv : ∀ it ∈ items, ItemInv it) :
    ∀ it ∈ addQtyFirst items pid q, ItemInv it := by
  induction items with
  | nil => intro it h; cases h
  | cons hd rest ih =>
    intro it hmem
    by_cases h : hd.product_id = pid
    · rw [addQtyFirst, if_pos h] at hmem
      rcases List.mem_cons.mp hmem with h1 | h1
      · subst h1
        obtain ⟨hq1, hs, kp, hkp, hid, hpr⟩ := hinv hd (List.mem_cons_self _ _)
        refine ⟨?_, rfl, kp, hkp, hid, hpr⟩
        show (1 : ℤ) ≤ hd.quantity + q
        linarith
      · exact hinv it (List.mem_cons_of_mem _ h1)
    · rw [addQtyFirst, if_neg h] at hmem
      rcases List.mem_cons.mp hmem with h1 | h1
      · subst h1
        exact hinv it (List.mem_cons_self _ _)
      · exact ih (fun x hx => hinv x (List.mem_cons_of_mem _ hx)) it h1

theorem addQtyFirst_sum {items : List CartItem} {pid : String} {e : CartItem} (q : ℤ)
    (hsub : ∀ it ∈ items, it.subtotal = it.unit_price * (it.quantity : ℚ))
    (hfind : items.find? (fun it => decide (it.product_id = pid)) = some e) :
    ((addQtyFirst items pid q).map (fun it => it.subtotal)).sum =
      (items.map (fun it => it.subtotal)).sum + e.unit_price * (q : ℚ) := by
  induction items with
  | nil => cases hfind
  | cons hd rest ih =>
    by_cases h : hd.product_id = pid
    · have he : hd = e := by
        rw [List.find?_cons_of_pos _ (by simpa using h)] at hfind
        cases hfind
        rfl
      subst he
      rw [addQtyFirst, if_pos h]
      have hs := hsub hd (List.mem_cons_self _ _)
      simp only [List.map_cons, List.sum_cons, hs]
      push_cast
      ring
    · rw [List.find?_cons_of_neg _ (by simpa using h)] at hfind
      rw [addQtyFirst, if_neg h]
      have := ih (fun x hx => hsub x (List.mem_cons_of_mem _ hx)) hfind
      simp only [List.map_cons, List.sum_cons, this]
      ring

theorem addQtyFirst_find {items : List CartItem} {pid : String} {q : ℤ} {e : CartItem}
    (hfind : items.find? (fun it => decide (it.product_id = pid)) = some e) :
    (addQtyFirst items pid q).find? (fun it => decide (it.product_id = pid)) =
      some { e with quantity := e.quantity + q,
                    subtotal := e.unit_price * ((e.quantity + q : ℤ) : ℚ) } := by
  induction items with
  | nil => cases hfind
  | cons hd rest ih =>
    by_cases h : hd.product_id = pid
    · have he : hd = e := by
        rw [List.find?_cons_of_pos _ (by simpa using h)] at hfind
        cases hfind
        rfl
      subst he
      rw [addQtyFirst, if_pos h]
      exact List.find?_cons_of_pos _ (by simpa using h)
    · rw [List.find?_cons_of_neg _ (by simpa using h)] at hfind
      rw [addQtyFirst, if_neg h]
      rw [List.find?_cons_of_neg _ (by simpa using h)]
      exact ih hfind

theorem find?_append_of_none {l₁ l₂ : List CartItem} {p : CartItem → Bool}
    (h : l₁.find? p = none) : (l₁ ++ l₂).find? p = l₂.find? p := by
  induction l₁ with
  | nil => rfl
  | cons hd rest ih =>
    cases hp : p hd with
    | true =>
      rw [List.find?_cons_of_pos _ hp] at h
      cases h
    | false =>
      have hp2 : ¬ p hd = true := by simp [hp]
      rw [List.find?_cons_of_neg _ hp2] at h
      rw [List.cons_append, List.find?_cons_of_neg _ hp2]
      exact ih h

theorem removeFirstPid_sublist (items : List CartItem) (pid : String) :
    List.Sublist (removeFirstPid items pid) items := by
  induction items with
  | nil => exact List.Sublist.refl _
  | cons hd rest ih =>
    by_cases h : hd.product_id = pid
    · rw [removeFirstPid, if_pos h]
      exact List.sublist_cons_self _ _
    · rw [removeFirstPid, if_neg h]
      exact ih.cons₂ hd

theorem removeFirstPid_find_none {items : List CartItem} {pid : String}
    (hnd : (items.map (fun it => it.product_id)).Nodup) :
    (removeFirstPid items pid).find? (fun it => decide (it.product_id = pid)) = none := by
  induction items with
  | nil => rfl
  | cons hd rest ih =>
    rw [List.map_cons, List.nodup_cons] at hnd
    by_cases h : hd.product_id = pid
    · rw [removeFirstPid, if_pos h]
      rw [List.find?_eq_none]
      intro it hit hp
      have : it.product_id = pid := by simpa using hp
      exact hnd.1 (h ▸ this ▸ List.mem_map_of_mem (fun x => x.product_id) hit)
    · rw [removeFirstPid, if_neg h]
      rw [List.find?_cons_of_neg _ (by simpa using h)]
      exact ih hnd.2

theorem decQtyFirst_map_id (items : List CartItem) (pid : String) (n : ℤ) :
    (decQtyFirst items pid n).map (fun it => it.product_id) =
      items.map (fun it => it.product_id) := by
  induction items with
  | nil => rfl
  | cons hd rest ih =>
    by_cases h : hd.product_id = pid
    · simp [decQtyFirst, h]
    · simp [decQtyFirst, h, ih]

theorem decQtyFirst_inv {items : List CartItem} {pid : String} {n : ℤ} {e : CartItem}
    (hfind : items.find? (fun it => decide (it.product_id = pid)) = some e)
    (hlt : n < e.quantity)
    (hinv : ∀ it ∈ items, ItemInv it) :
    ∀ it ∈ decQtyFirst items pid n, ItemInv it := by
  induction items with
  | nil => intro it h; cases h
  | cons hd rest ih =>
    intro it hmem
    by_cases h : hd.product_id = pid
    · have he : hd = e := by
        rw [List.find?_cons_of_pos _ (by simpa using h)] at hfind
        cases hfind
        rfl
      rw [decQtyFirst, if_pos h] at hmem
      rcases List.mem_cons.mp hmem with h1 | h1
      · subst h1
        obtain ⟨hq1, hs, kp, hkp, hid, hpr⟩ := hinv hd (List.mem_cons_self _ _)
        subst he
        refine ⟨?_, rfl, kp, hkp, hid, hpr⟩
        show (1 : ℤ) ≤ hd.quantity - n
        omega
      · exact hinv it (List.mem_cons_of_mem _ h1)
    · rw [List.find?_cons_of_neg _ (by simpa using h)] at hfind
      rw [decQtyFirst, if_neg h] at hmem
      rcases List.mem_cons.mp hmem with h1 | h1
      · subst h1
        exact hinv it (List.mem_cons_self _ _)
      · exact ih hfind (fun x hx => hinv x (List.mem_cons_of_mem _ hx)) it h1

theorem decQtyFirst_find {items : List CartItem} {pid : String} {n : ℤ} {e : CartItem}
    (hfind : items.find? (fun it => decide (it.product_id = pid)) = some e) :
    (decQtyFirst items pid n).find? (fun it => decide (it.product_id = pid)) =
      some { e with quantity := e.quantity - n,
                    subtotal := e.unit_price * ((e.quantity - n : ℤ) : ℚ) } := by
  induction items with
  | nil => cases hfind
  | cons hd rest ih =>
    by_cases h : hd.product_id = pid
    · have he : hd = e := by
        rw [List.find?_cons_of_pos _ (by simpa using h)] at hfind
        cases hfind
        rfl
      subst he
      rw [decQtyFirst, if_pos h]
      exact List.find?_cons_of_pos _ (by simpa using h)
    · rw [List.find?_cons_of_neg _ (by simpa using h)] at hfind
      rw [decQtyFirst, if_neg h]
      rw [List.find?_cons_of_neg _ (by simpa using h)]
      exact ih hfind

theorem stateInv_add (p : Str) (q : ℤ) (s : AgentState) (h : StateInv s) :
    StateInv (add_to_cart p q s).2 := by
  obtain ⟨hdb, hinv, hnd, hcode⟩ := h
  simp only [add_to_cart]
  by_cases h0 : q ≤ 0
  · rw [if_pos h0]
    exact ⟨hdb, hinv, hnd, hcode⟩
  · rw [if_neg h0]
    cases hf : find_product_fuzzy s.productsDb p with
    | none => exact ⟨hdb, hinv, hnd, hcode⟩
    | some kp =>
      simp only
      split
      · exact ⟨hdb, hinv, hnd, hcode⟩
      · cases hg : get_cart_item_by_product s.cart kp.2.id with
        | some e =>
          simp only [hg]
          refine ⟨hdb, ?_, ?_, hcode⟩
          · exact addQtyFirst_inv (by linarith) hinv
          · rw [addQtyFirst_map_id]
            exact hnd
        | none =>
          simp only [hg]
          refine ⟨hdb, ?_, ?_, hcode⟩
          · intro it hmem
            rcases List.mem_append.mp hmem with hm | hm
            · exact hinv it hm
            · rcases List.mem_singleton.mp hm with rfl
              refine ⟨?_, rfl, kp, hdb ▸ fpf_mem hf, rfl, rfl⟩
              show (1 : ℤ) ≤ q
              linarith
          · rw [List.map_append]
            rw [List.nodup_append]
            refine ⟨hnd, List.nodup_singleton _, ?_⟩
            intro a ha hb
            have ha2 : a = kp.2.id := by simpa using hb
            subst ha2
            obtain ⟨it, hit, hit2⟩ := List.mem_map.mp ha
            have := List.find?_eq_none.mp hg it hit
            simp only [decide_eq_true_eq] at this
            exact this hit2

theorem stateInv_remove (p : Str) (q : Option ℤ) (s : AgentState) (h : StateInv s) :
    StateInv (remove_from_cart p q s).2 := by
  obtain ⟨hdb, hinv, hnd, hcode⟩ := h
  have hremove : ∀ pid : String, CartInv { s.cart with items := removeFirstPid s.cart.items pid } := by
    intro pid
    refine ⟨?_, ?_, hcode⟩
    · intro it hmem
      exact hinv it ((removeFirstPid_sublist s.cart.items pid).mem hmem)
    · exact hnd.sublist ((removeFirstPid_sublist s.cart.items pid).map _)
  simp only [remove_from_cart]
  cases hf : find_product_fuzzy s.productsDb p with
  | none => exact ⟨hdb, hinv, hnd, hcode⟩
  | some kp =>
    simp only
    cases hg : get_cart_item_by_product s.cart kp.2.id with
    | none => exact ⟨hdb, hinv, hnd, hcode⟩
    | some e =>
      simp only [hg]
      cases q with
      | none => exact ⟨hdb, hremove kp.2.id⟩
      | some n =>
        simp only
        by_cases h1 : e.quantity ≤ n
        · rw [if_pos h1]
          exact ⟨hdb, hremove kp.2.id⟩
        · rw [if_neg h1]
          by_cases h2 : (0 : ℤ) < n
          · rw [if_pos h2]
            refine ⟨hdb, ?_, ?_, hcode⟩
            · exact decQtyFirst_inv hg (by linarith) hinv
            · rw [decQtyFirst_map_id]
              exact hnd
          · rw [if_neg h2]
            exact ⟨hdb, hinv, hnd, hcode⟩

theorem stateInv_apply (c : Str) (s : AgentState) (h : StateInv s) :
    StateInv (apply_discount c s).2 := by
  obtain ⟨hdb, hinv, hnd, hcode⟩ := h
  simp only [apply_discount]
  by_cases h0 : s.cart.items = []
  · rw [if_pos h0]
    exact ⟨hdb, hinv, hnd, hcode⟩
  · rw [if_neg h0]
    by_cases h1 : (lookupCode (pyUpper (pyStrip c))).isSome = true
    · rw [if_pos h1]
      refine ⟨hdb, hinv, hnd, ?_⟩
      intro k hk
      cases hk
      exact ⟨h1, lookupCode_ne_nil h1⟩
    · rw [if_neg h1]
      exact ⟨hdb, hinv, hnd, hcode⟩

theorem stateInv_step (call : ToolCall) (s : AgentState) (h : StateInv s) :
    StateInv (runTool call s).2 := by
  cases call with
  | searchProduct n =>
    obtain ⟨f1, f2, -⟩ := search_frame n s
    exact ⟨f1 ▸ h.1, f2 ▸ h.2⟩
  | addToCart p q => exact stateInv_add p q s h
  | viewCart => rw [runTool, view_frame]; exact h
  | applyDiscount c => exact stateInv_apply c s h
  | removeFromCart p q => exact stateInv_remove p q s h
  | clearCart =>
    rw [runTool, clear_frame]
    exact ⟨h.1, by simp [CartInv], by simp, by simp⟩
  | calculateTotal => rw [runTool, calc_frame]; exact h
  | recommendProducts c => rw [runTool, recommend_frame]; exact h
  | showHistory => rw [runTool, history_frame]; exact h

theorem reach_inv {s : AgentState} (h : Reach s) : StateInv s := by
  induction h with
  | init =>
    refine ⟨rfl, ?_, ?_, ?_⟩
    · intro it hmem
      cases hmem
    · simp [initialState]
    · intro k hk
      cases hk
  | step call s hs ih => exact stateInv_step call s ih

/-- The catalog's product ids are pairwise distinct. -/
theorem products_ids_nodup : (PRODUCTS_DB.map (fun kp => kp.2.id)).Nodup := by decide

/-- Two catalog entries with the same product id carry the same price. -/
theorem products_id_price {kp1 kp2 : Str × Product} (h1 : kp1 ∈ PRODUCTS_DB)
    (h2 : kp2 ∈ PRODUCTS_DB) (h : kp1.2.id = kp2.2.id) : kp1.2.price = kp2.2.price := by
  have := List.inj_on_of_nodup_map products_ids_nodup h1 h2 h
  rw [this]

/-- The discount rate the spec's table associates with an applied code
(`0` when no code is applied). -/
def discRateOf : Option Str → ℚ
  | none => 0
  | some k => (lookupCode k).getD 0

/-! ## Claims -/

/-- C10: `remove_from_cart` never modifies the applied discount code — for
every state and every input the code after the call equals the code before
it, so removing the last item leaves a previously applied code attached to
the now-empty cart — `clear_cart` resets the code to `none`, and among all
tools only `clear_cart` resets it: any other call that ends with no code
started with no code. -/
theorem C10_thm : ∀ (s : AgentState) (p : Str) (n : Option ℤ),
    (remove_from_cart p n s).2.cart.discount_code = s.cart.discount_code ∧
    (clear_cart s).2.cart.discount_code = none ∧
    ∀ call : ToolCall, call ≠ ToolCall.clearCart →
      (runTool call s).2.cart.discount_code = none → s.cart.discount_code = none := by
  intro s p n
  refine ⟨(remove_frame p n s).2.2, rfl, ?_⟩
  intro call hne h
  cases call with
  | searchProduct m =>
    rw [runTool, (search_frame m s).2.1] at h
    exact h
  | addToCart p2 q2 =>
    rw [runTool] at h
    rw [(add_frame p2 q2 s).2.2] at h
    exact h
  | viewCart =>
    rw [runTool, view_frame] at h
    exact h
  | applyDiscount c =>
    rw [runTool] at h
    simp only [apply_discount] at h
    split at h
    · exact h
    · split at h
      · cases h
      · exact h
  | removeFromCart p2 q2 =>
    rw [runTool] at h
    rw [(remove_frame p2 q2 s).2.2] at h
    exact h
  | clearCart => exact absurd rfl hne
  | calculateTotal =>
    rw [runTool, calc_frame] at h
    exact h
  | recommendProducts c =>
    rw [runTool, recommend_frame] at h
    exact h
  | showHistory =>
    rw [runTool, history_frame] at h
    exact h

theorem C10_witness : initialState.cart.discount_code = none :=
  (C10_thm initialState [] none).2.2 ToolCall.viewCart (by decide) rfl

/-- C5: `apply_discount` rejects on an empty cart; it normalises the code by
trimming and uppercasing and looks it up in the fixed table
`WELCOME10 → 10%`, `SAVE20 → 20%`, `VIP30 → 30%`; an unknown code is
rejected with the list of valid codes returned and the whole state (in
particular the applied code) unchanged; a known code replaces any previously
applied code, leaving the items, catalog and history unchanged. -/
theorem C5_thm : ∀ (s : AgentState) (code : Str),
    (lookupCode ("WELCOME10".toList) = some (10 / 100) ∧
      lookupCode ("SAVE20".toList) = some (20 / 100) ∧
      lookupCode ("VIP30".toList) = some (30 / 100)) ∧
    (s.cart.items = [] →
      (apply_discount code s).1.status = ToolStatus.error ∧ (apply_discount code s).2 = s) ∧
    (s.cart.items ≠ [] →
      (lookupCode (pyUpper (pyStrip code)) = none →
        (apply_discount code s).1.status = ToolStatus.error ∧
        (apply_discount code s).1.availableCodes =
          some ["WELCOME10".toList, "SAVE20".toList, "VIP30".toList] ∧
        (apply_discount code s).2 = s) ∧
      ∀ r, lookupCode (pyUpper (pyStrip code)) = some r →
        (apply_discount code s).1.status = ToolStatus.success ∧
        (apply_discount code s).2.cart.discount_code = some (pyUpper (pyStrip code)) ∧
        (apply_discount code s).2.cart.items = s.cart.items ∧
        (apply_discount code s).2.productsDb = s.productsDb ∧
        (apply_discount code s).2.searchHistory = s.searchHistory) := by
  intro s code
  refine ⟨⟨rfl, rfl, rfl⟩, ?_, ?_⟩
  · intro h0
    simp only [apply_discount]
    rw [if_pos h0]
    exact ⟨rfl, rfl⟩
  · intro h0
    constructor
    · intro hnone
      simp only [apply_discount]
      rw [if_neg h0, if_neg (by rw [hnone]; simp)]
      exact ⟨rfl, rfl, rfl⟩
    · intro r hsome
      simp only [apply_discount]
      rw [if_neg h0, if_pos (by rw [hsome]; rfl)]
      exact ⟨rfl, rfl, rfl, rfl, rfl⟩

theorem C5_witness :
    ((apply_discount ("SAVE20".toList) initialState).1.status = ToolStatus.error ∧
      (apply_discount ("SAVE20".toList) initialState).2 = initialState) ∧
    ((apply_discount (" welcome10 ".toList)
        ⟨PRODUCTS_DB, ⟨[CartItem.make "LPG001" "Gaming Laptop Pro" 1500 1], none⟩, []⟩).1.status
        = ToolStatus.success ∧
      (apply_discount (" welcome10 ".toList)
        ⟨PRODUCTS_DB, ⟨[CartItem.make "LPG001" "Gaming Laptop Pro" 1500 1], none⟩, []⟩).2.cart.discount_code
        = some (pyUpper (pyStrip (" welcome10 ".toList)))) := by
  constructor
  · exact (C5_thm initialState ("SAVE20".toList)).2.1 rfl
  · have h := (C5_thm ⟨PRODUCTS_DB, ⟨[CartItem.make "LPG001" "Gaming Laptop Pro" 1500 1], none⟩, []⟩
      (" welcome10 ".toList)).2.2 (by simp) |>.2 (10 / 100) rfl
    exact ⟨h.1, h.2.1⟩

/-- C9 counterexample: `search_product_by_name` mutates state outside the
Cart — it appends the query to the search history — refuting the claim that
every operation is side-effect-free except for mutating the single shared
Cart. -/
theorem C9_cex :
    (runTool (ToolCall.searchProduct ("monitor".toList)) initialState).2.searchHistory
      ≠ initialState.searchHistory := by
  intro h
  rw [runTool, (search_frame ("monitor".toList) initialState).2.2] at h
  simp [initialState] at h

/-- C9 (amended): every operation leaves the product catalog unchanged (it is
immutable reference data), and the only state outside the Cart any operation
touches is the search history: `search_product_by_name` appends its query to
the history and changes nothing else outside the Cart, and every other
operation leaves the history unchanged. -/
theorem C9_thm : ∀ (call : ToolCall) (s : AgentState),
    (runTool call s).2.productsDb = s.productsDb ∧
    (∀ n, call = ToolCall.searchProduct n →
      (runTool call s).2.cart = s.cart ∧
      (runTool call s).2.searchHistory = s.searchHistory ++ [n]) ∧
    ((∀ n, call ≠ ToolCall.searchProduct n) →
      (runTool call s).2.searchHistory = s.searchHistory) := by
  intro call s
  cases call with
  | searchProduct n =>
    obtain ⟨f1, f2, f3⟩ := search_frame n s
    refine ⟨f1, ?_, ?_⟩
    · intro m hm
      injection hm with hm2
      subst hm2
      exact ⟨f2, f3⟩
    · intro hne
      exact absurd rfl (hne n)
  | addToCart p q =>
    obtain ⟨f1, f2, -⟩ := add_frame p q s
    refine ⟨f1, ?_, fun _ => f2⟩
    intro m hm
    cases hm
  | viewCart =>
    rw [runTool, view_frame]
    refine ⟨rfl, ?_, fun _ => rfl⟩
    intro m hm
    cases hm
  | applyDiscount c =>
    obtain ⟨f1, f2, -⟩ := applyd_frame c s
    refine ⟨f1, ?_, fun _ => f2⟩
    intro m hm
    cases hm
  | removeFromCart p q =>
    obtain ⟨f1, f2, -⟩ := remove_frame p q s
    refine ⟨f1, ?_, fun _ => f2⟩
    intro m hm
    cases hm
  | clearCart =>
    rw [runTool, clear_frame]
    refine ⟨rfl, ?_, fun _ => rfl⟩
    intro m hm
    cases hm
  | calculateTotal =>
    rw [runTool, calc_frame]
    refine ⟨rfl, ?_, fun _ => rfl⟩
    intro m hm
    cases hm
  | recommendProducts c =>
    rw [runTool, recommend_frame]
    refine ⟨rfl, ?_, fun _ => rfl⟩
    intro m hm
    cases hm
  | showHistory =>
    rw [runTool, history_frame]
    refine ⟨rfl, ?_, fun _ => rfl⟩
    intro m hm
    cases hm

/-- C1: for every reachable state the totals satisfy the spec formulas:
subtotal = Σ line subtotals; discount = subtotal × rate of the applied code
(0 when none); tax = (subtotal − discount) × 8%; shipping = 0 when the
pre-discount subtotal is ≥ 100 and a fixed 10 otherwise; total = subtotal −
discount + tax + shipping.  In particular any cart with subtotal 200 and
applied code WELCOME10 yields discount 20, tax 14.4, shipping 0, total
194.4, and any cart with subtotal 50 and no code yields discount 0, tax 4,
shipping 10, total 64. -/
theorem C1_thm :
    (∀ s : AgentState, Reach s →
      s.cart.get_subtotal = (s.cart.items.map (fun it => it.subtotal)).sum ∧
      s.cart.get_discount_amount = s.cart.get_subtotal * discRateOf s.cart.discount_code ∧
      s.cart.get_tax = (s.cart.get_subtotal - s.cart.get_discount_amount) * (8 / 100) ∧
      s.cart.get_shipping = (if (100 : ℚ) ≤ s.cart.get_subtotal then 0 else 10) ∧
      s.cart.get_total =
        s.cart.get_subtotal - s.cart.get_discount_amount + s.cart.get_tax +
          s.cart.get_shipping) ∧
    (∀ c : Cart, c.get_subtotal = 200 → c.discount_code = some ("WELCOME10".toList) →
      c.get_discount_amount = 20 ∧ c.get_tax = 14.4 ∧ c.get_shipping = 0 ∧
        c.get_total = 194.4) ∧
    (∀ c : Cart, c.get_subtotal = 50 → c.discount_code = none →
      c.get_discount_amount = 0 ∧ c.get_tax = 4 ∧ c.get_shipping = 10 ∧
        c.get_total = 64) := by
  refine ⟨?_, ?_, ?_⟩
  · intro s hs
    obtain ⟨-, -, -, hcode⟩ := reach_inv hs
    refine ⟨rfl, ?_, rfl, rfl, rfl⟩
    cases hd : s.cart.discount_code with
    | none => simp [Cart.get_discount_amount, discRateOf, hd]
    | some k =>
      obtain ⟨hsome, hne⟩ := hcode k hd
      simp only [Cart.get_discount_amount, discRateOf, hd]
      rw [if_pos ⟨hne, hsome⟩]
  · intro c h200 hc
    have hl : lookupCode ("WELCOME10".toList) = some (10 / 100) := rfl
    have hd : c.get_discount_amount = 20 := by
      simp only [Cart.get_discount_amount, hc]
      rw [if_pos ⟨by decide, by rw [hl]; rfl⟩, hl, h200]
      norm_num
    have ht : c.get_tax = 14.4 := by
      simp only [Cart.get_tax, TAX_RATE, hd, h200]
      norm_num
    have hsh : c.get_shipping = 0 := by
      simp only [Cart.get_shipping, SHIPPING_THRESHOLD, h200]
      norm_num
    have htot : c.get_total = 194.4 := by
      simp only [Cart.get_total, hd, ht, hsh, h200]
      norm_num
    exact ⟨hd, ht, hsh, htot⟩
  · intro c h50 hc
    have hd : c.get_discount_amount = 0 := by
      simp [Cart.get_discount_amount, hc]
    have ht : c.get_tax = 4 := by
      simp only [Cart.get_tax, TAX_RATE, hd, h50]
      norm_num
    have hsh : c.get_shipping = 10 := by
      simp only [Cart.get_shipping, SHIPPING_THRESHOLD, SHIPPING_COST, h50]
      norm_num
    have htot : c.get_total = 64 := by
      simp only [Cart.get_total, hd, ht, hsh, h50]
      norm_num
    exact ⟨hd, ht, hsh, htot⟩

theorem C1_witness :
    Cart.get_discount_amount ⟨[⟨"TEC005", "Mechanical RGB Keyboard", 120, 1, 120⟩,
        ⟨"MOU002", "Gaming Mouse Pro", 80, 1, 80⟩], some ("WELCOME10".toList)⟩ = 20 ∧
    Cart.get_tax ⟨[⟨"TEC005", "Mechanical RGB Keyboard", 120, 1, 120⟩,
        ⟨"MOU002", "Gaming Mouse Pro", 80, 1, 80⟩], some ("WELCOME10".toList)⟩ = 14.4 ∧
    Cart.get_shipping ⟨[⟨"TEC005", "Mechanical RGB Keyboard", 120, 1, 120⟩,
        ⟨"MOU002", "Gaming Mouse Pro", 80, 1, 80⟩], some ("WELCOME10".toList)⟩ = 0 ∧
    Cart.get_total ⟨[⟨"TEC005", "Mechanical RGB Keyboard", 120, 1, 120⟩,
        ⟨"MOU002", "Gaming Mouse Pro", 80, 1, 80⟩], some ("WELCOME10".toList)⟩ = 194.4 :=
  C1_thm.2.1 ⟨[⟨"TEC005", "Mechanical RGB Keyboard", 120, 1, 120⟩,
      ⟨"MOU002", "Gaming Mouse Pro", 80, 1, 80⟩], some ("WELCOME10".toList)⟩
    (by simp [Cart.get_subtotal]; norm_num) rfl

/-- C7: in every state reachable from the empty cart through the tool calls,
every cart line has a positive integer quantity and a stored subtotal equal
to unit price × quantity, and the cart holds at most one line per product
identifier. -/
theorem C7_thm : ∀ s : AgentState, Reach s →
    (∀ it ∈ s.cart.items,
      1 ≤ it.quantity ∧ it.subtotal = it.unit_price * (it.quantity : ℚ)) ∧
    (s.cart.items.map (fun it => it.product_id)).Nodup := by
  intro s hs
  obtain ⟨-, hinv, hnd, -⟩ := reach_inv hs
  exact ⟨fun it h => ⟨(hinv it h).1, (hinv it h).2.1⟩, hnd⟩

theorem C7_witness :
    (∀ it ∈ ((runTool (ToolCall.addToCart ("gaming laptop pro".toList) 1)
        (runTool (ToolCall.addToCart ("gaming laptop pro".toList) 2) initialState).2).2).cart.items,
      1 ≤ it.quantity ∧ it.subtotal = it.unit_price * (it.quantity : ℚ)) ∧
    (((runTool (ToolCall.addToCart ("gaming laptop pro".toList) 1)
        (runTool (ToolCall.addToCart ("gaming laptop pro".toList) 2) initialState).2).2).cart.items.map
      (fun it => it.product_id)).Nodup :=
  C7_thm _ (Reach.step _ _ (Reach.step _ _ Reach.init))

/-- C4: for every reachable state, `remove_from_cart` returns an error and
leaves the state unchanged when the query does not resolve or the resolved
product is not in the cart; with the quantity omitted, or an explicit
quantity ≥ the line's current quantity, it removes the line entirely; with a
smaller positive quantity it decrements the line to `current − n` and
recomputes its subtotal; a non-positive explicit quantity is an error
leaving the state unchanged. -/
theorem C4_thm : ∀ s : AgentState, Reach s → ∀ (p : Str) (nq : Option ℤ),
    (find_product_fuzzy PRODUCTS_DB p = none →
      (remove_from_cart p nq s).1.status = ToolStatus.error ∧
      (remove_from_cart p nq s).2 = s) ∧
    ∀ k pr, find_product_fuzzy PRODUCTS_DB p = some (k, pr) →
      (get_cart_item_by_product s.cart pr.id = none →
        (remove_from_cart p nq s).1.status = ToolStatus.error ∧
        (remove_from_cart p nq s).2 = s) ∧
      ∀ e, get_cart_item_by_product s.cart pr.id = some e →
        (nq = none →
          (remove_from_cart p nq s).1.status = ToolStatus.success ∧
          (remove_from_cart p nq s).2.cart.items = removeFirstPid s.cart.items pr.id ∧
          get_cart_item_by_product (remove_from_cart p nq s).2.cart pr.id = none) ∧
        ∀ n, nq = some n →
          (e.quantity ≤ n →
            (remove_from_cart p nq s).1.status = ToolStatus.success ∧
            (remove_from_cart p nq s).2.cart.items = removeFirstPid s.cart.items pr.id ∧
            get_cart_item_by_product (remove_from_cart p nq s).2.cart pr.id = none) ∧
          (0 < n → n < e.quantity →
            (remove_from_cart p nq s).1.status = ToolStatus.success ∧
            get_cart_item_by_product (remove_from_cart p nq s).2.cart pr.id =
              some { e with quantity := e.quantity - n,
                            subtotal := e.unit_price * ((e.quantity - n : ℤ) : ℚ) }) ∧
          (n ≤ 0 →
            (remove_from_cart p nq s).1.status = ToolStatus.error ∧
            (remove_from_cart p nq s).2 = s) := by
  intro s hs p nq
  obtain ⟨hdb, hinv, hnd, -⟩ := reach_inv hs
  constructor
  · intro hf
    simp only [remove_from_cart, hdb, hf]
    exact ⟨by trivial, by trivial⟩
  · intro k pr hf
    constructor
    · intro hg
      simp only [remove_from_cart, hdb, hf, hg]
      exact ⟨by trivial, by trivial⟩
    · intro e hg
      have hg2 : s.cart.items.find? (fun it => decide (it.product_id = pr.id)) = some e := hg
      have he_mem : e ∈ s.cart.items := List.mem_of_find?_eq_some hg2
      have he_pos : 1 ≤ e.quantity := (hinv e he_mem).1
      constructor
      · rintro rfl
        simp only [remove_from_cart, hdb, hf, hg]
        refine ⟨by trivial, by trivial, ?_⟩
        exact removeFirstPid_find_none hnd
      · rintro n rfl
        refine ⟨?_, ?_, ?_⟩
        · intro hge
          simp only [remove_from_cart, hdb, hf, hg]
          rw [if_pos hge]
          refine ⟨by trivial, by trivial, ?_⟩
          exact removeFirstPid_find_none hnd
        · intro hpos hlt
          simp only [remove_from_cart, hdb, hf, hg]
          rw [if_neg (by omega), if_pos hpos]
          exact ⟨by trivial, decQtyFirst_find hg2⟩
        · intro hle
          simp only [remove_from_cart, hdb, hf, hg]
          rw [if_neg (by omega), if_neg (by omega)]
          exact ⟨by trivial, by trivial⟩

theorem C4_witness :
    (remove_from_cart ("gaming laptop pro".toList) (some 1)
        (runTool (ToolCall.addToCart ("gaming laptop pro".toList) 3) initialState).2).1.status
      = ToolStatus.success ∧
    get_cart_item_by_product
        (remove_from_cart ("gaming laptop pro".toList) (some 1)
          (runTool (ToolCall.addToCart ("gaming laptop pro".toList) 3) initialState).2).2.cart
        laptopProduct.id
      = some { CartItem.make "LPG001" "Gaming Laptop Pro" 1500 3 with
               quantity := (3 : ℤ) - 1,
               subtotal := (1500 : ℚ) * (((3 : ℤ) - 1 : ℤ) : ℚ) } :=
  (((C4_thm ((runTool (ToolCall.addToCart ("gaming laptop pro".toList) 3) initialState).2)
      (Reach.step (ToolCall.addToCart ("gaming laptop pro".toList) 3) initialState Reach.init)
      ("gaming laptop pro".toList) (some 1)).2
      ("gaming laptop pro".toList) laptopProduct rfl).2
    (CartItem.make "LPG001" "Gaming Laptop Pro" 1500 3) rfl).2 1 rfl
    |>.2.1 (by decide) (by decide)

/-- C8 counterexample: an empty-string category is "supplied" but falsy in
Python, so `recommend_products` does not filter (and does not return the
error the claim requires for an empty filter): it succeeds with the overall
top 3, although no product has category `""`. -/
theorem C8_cex :
    ((PRODUCTS_DB.map (fun kp => kp.2)).filter
        (fun p => decide (pyLower p.category = pyLower [])) = []) ∧
    (recommend_products (some []) initialState).1.status = ToolStatus.success ∧
    (recommend_products (some []) initialState).1.availableCategories = none := by
  refine ⟨rfl, ?_, ?_⟩ <;> simp [recommend_products, recommendTop, initialState]

set_option maxRecDepth 32768 in
/-- C3 counterexample: (a) `find_product_fuzzy "leptop"` resolves to nothing
(its best similarity, against `"gaming laptop pro"`, is `10/23 < 0.6`),
refuting "findProduct(\"leptop\") resolves to the closest catalog entry
above the 0.6 threshold"; and (b) on the query `"4k hdrmophones"` the keys
`"4k hdr monitor"` (catalog position 2) and `"7.1 headphones"` (catalog
position 4) are both above the cutoff with equal similarity `18/28`, and the
code resolves to the lexicographically greater later key `"7.1 headphones"`,
refuting "ties broken by catalog iteration order, i.e. the first
sufficiently-close candidate". -/
theorem C3_cex :
    find_product_fuzzy PRODUCTS_DB ("leptop".toList) = none ∧
    (find_product_fuzzy PRODUCTS_DB ("4k hdrmophones".toList)).map (fun kp => kp.1) =
      some ("7.1 headphones".toList) ∧
    passCutoff ("4k hdr monitor".toList) ("4k hdrmophones".toList) = true ∧
    passCutoff ("7.1 headphones".toList) ("4k hdrmophones".toList) = true ∧
    scoreEq (ratioPair ("4k hdr monitor".toList) ("4k hdrmophones".toList))
        (ratioPair ("7.1 headphones".toList) ("4k hdrmophones".toList)) = true ∧
    (PRODUCTS_DB.map (fun kp => kp.1)).getD 2 [] = "4k hdr monitor".toList ∧
    (PRODUCTS_DB.map (fun kp => kp.1)).getD 4 [] = "7.1 headphones".toList ∧
    strLtB ("4k hdr monitor".toList) ("7.1 headphones".toList) = true :=
  ⟨rfl, rfl, rfl, rfl, rfl, rfl, rfl, rfl⟩

set_option maxRecDepth 32768 in
/-- C3 (amended): `find_product_fuzzy` first tries a case-insensitive exact
match against the catalog keys (returning that entry); if that fails it
returns a best approximate match among the keys whose similarity ratio is
`≥ 0.6`: the returned key passes the cutoff and no other passing candidate
beats it in the Python tuple order on (ratio, key) — so ties in similarity
are broken toward the lexicographically greater key, not catalog iteration
order — and it reports not found exactly when no key reaches the cutoff.
In particular `"leptop"` resolves to nothing (its best similarity is below
the threshold), and `"xyz123"` resolves to nothing. -/
theorem C3_thm :
    (∀ q : Str,
      (pyLower (pyStrip q) ∈ PRODUCTS_DB.map (fun kp => kp.1) →
        ∃ pr, (pyLower (pyStrip q), pr) ∈ PRODUCTS_DB ∧
          find_product_fuzzy PRODUCTS_DB q = some (pyLower (pyStrip q), pr)) ∧
      (pyLower (pyStrip q) ∉ PRODUCTS_DB.map (fun kp => kp.1) →
        (find_product_fuzzy PRODUCTS_DB q = none →
          ∀ k ∈ PRODUCTS_DB.map (fun kp => kp.1),
            ratioQ k (pyLower (pyStrip q)) < 3 / 5) ∧
        (∀ k pr, find_product_fuzzy PRODUCTS_DB q = some (k, pr) →
          (k, pr) ∈ PRODUCTS_DB ∧
          3 / 5 ≤ ratioQ k (pyLower (pyStrip q)) ∧
          ∀ k2 ∈ PRODUCTS_DB.map (fun kp => kp.1),
            3 / 5 ≤ ratioQ k2 (pyLower (pyStrip q)) →
            pairGt (ratioPair k2 (pyLower (pyStrip q)), k2)
              (ratioPair k (pyLower (pyStrip q)), k) = false))) ∧
    find_product_fuzzy PRODUCTS_DB ("leptop".toList) = none ∧
    find_product_fuzzy PRODUCTS_DB ("xyz123".toList) = none := by
  refine ⟨?_, rfl, rfl⟩
  intro q
  constructor
  · intro hmem
    have hsome : (PRODUCTS_DB.find? (fun kp => decide (kp.1 = pyLower (pyStrip q)))).isSome := by
      rw [List.find?_isSome]
      obtain ⟨kp, hkp, hk⟩ := List.mem_map.mp hmem
      exact ⟨kp, hkp, by simpa using hk⟩
    obtain ⟨kp0, hf0⟩ := Option.isSome_iff_exists.mp hsome
    have hk0 : kp0.1 = pyLower (pyStrip q) := by simpa using List.find?_some hf0
    refine ⟨kp0.2, ?_, ?_⟩
    · rw [← hk0, Prod.mk.eta]
      exact List.mem_of_find?_eq_some hf0
    · simp only [find_product_fuzzy, hf0]
  · intro hmem
    have hf0 : PRODUCTS_DB.find? (fun kp => decide (kp.1 = pyLower (pyStrip q))) = none := by
      rw [List.find?_eq_none]
      intro kp hkp hp
      exact hmem (List.mem_map.mpr ⟨kp, hkp, by simpa using hp⟩)
    constructor
    · intro hnone k hk
      cases hg : getCloseMatches1 (pyLower (pyStrip q)) (PRODUCTS_DB.map (fun kp => kp.1)) with
      | none =>
        have hpass := gcm_none hg k hk
        have : ¬ (3 / 5 ≤ ratioQ k (pyLower (pyStrip q))) := by
          rw [← passCutoff_iff, hpass]
          exact Bool.false_ne_true
        exact not_le.mp this
      | some m =>
        exfalso
        obtain ⟨hm_mem, -, -⟩ := gcm_some hg
        have hsome2 : (PRODUCTS_DB.find? (fun kp => decide (kp.1 = m))).isSome := by
          rw [List.find?_isSome]
          obtain ⟨kp, hkp, hk2⟩ := List.mem_map.mp hm_mem
          exact ⟨kp, hkp, by simpa using hk2⟩
        obtain ⟨kp2, hf2⟩ := Option.isSome_iff_exists.mp hsome2
        have hval : find_product_fuzzy PRODUCTS_DB q = some (m, kp2.2) := by
          simp only [find_product_fuzzy, hf0, hg, hf2]
        rw [hval] at hnone
        cases hnone
    · intro k pr hsome
      have hmem2 : (k, pr) ∈ PRODUCTS_DB := fpf_mem hsome
      cases hg : getCloseMatches1 (pyLower (pyStrip q)) (PRODUCTS_DB.map (fun kp => kp.1)) with
      | none =>
        have hval : find_product_fuzzy PRODUCTS_DB q = none := by
          simp only [find_product_fuzzy, hf0, hg]
        rw [hval] at hsome
        cases hsome
      | some m =>
        cases hf2 : PRODUCTS_DB.find? (fun kp => decide (kp.1 = m)) with
        | none =>
          have hval : find_product_fuzzy PRODUCTS_DB q = none := by
            simp only [find_product_fuzzy, hf0, hg, hf2]
          rw [hval] at hsome
          cases hsome
        | some kp2 =>
          have hval : find_product_fuzzy PRODUCTS_DB q = some (m, kp2.2) := by
            simp only [find_product_fuzzy, hf0, hg, hf2]
          rw [hval] at hsome
          injection hsome with h1
          injection h1 with h2 h3
          subst h2
          obtain ⟨-, hpass, hmax⟩ := gcm_some hg
          refine ⟨hmem2, (passCutoff_iff _ _).mp hpass, ?_⟩
          intro k2 hk2 hge
          exact hmax k2 hk2 ((passCutoff_iff _ _).mpr hge)

set_option maxRecDepth 32768 in
theorem C3_witness :
    ∃ pr, (pyLower (pyStrip (" Gaming LAPTOP Pro ".toList)), pr) ∈ PRODUCTS_DB ∧
      find_product_fuzzy PRODUCTS_DB (" Gaming LAPTOP Pro ".toList) =
        some (pyLower (pyStrip (" Gaming LAPTOP Pro ".toList)), pr) :=
  (C3_thm.1 (" Gaming LAPTOP Pro ".toList)).1 (by decide)

theorem recLe_lk : recLe laptopProduct keyboardProduct = true := by
  rw [recLe, decide_eq_true_eq]
  norm_num [laptopProduct, keyboardProduct]

theorem recLe_lm : recLe laptopProduct monitorProduct = false := by
  rw [recLe, decide_eq_false_iff_not]
  norm_num [laptopProduct, monitorProduct]

theorem recLe_mmo : recLe monitorProduct mouseProduct = true := by
  rw [recLe, decide_eq_true_eq]
  norm_num [monitorProduct, mouseProduct]

theorem recLe_lmo : recLe laptopProduct mouseProduct = true := by
  rw [recLe, decide_eq_true_eq]
  norm_num [laptopProduct, mouseProduct]

theorem recLe_kmo : recLe keyboardProduct mouseProduct = false := by
  rw [recLe, decide_eq_false_iff_not]
  norm_num [keyboardProduct, mouseProduct]

theorem recLe_mh : recLe monitorProduct headphonesProduct = true := by
  rw [recLe, decide_eq_true_eq]
  norm_num [monitorProduct, headphonesProduct]

theorem recLe_lh : recLe laptopProduct headphonesProduct = true := by
  rw [recLe, decide_eq_true_eq]
  norm_num [laptopProduct, headphonesProduct]

theorem recLe_moh : recLe mouseProduct headphonesProduct = true := by
  rw [recLe, decide_eq_true_eq]
  norm_num [mouseProduct, headphonesProduct]

theorem recLe_kh : recLe keyboardProduct headphonesProduct = true := by
  rw [recLe, decide_eq_true_eq]
  norm_num [keyboardProduct, headphonesProduct]

/-- The stable (rating, reviews)-descending sort of the whole catalog. -/
theorem sort_all : stableSort recLe (PRODUCTS_DB.map (fun kp => kp.2)) =
    [monitorProduct, laptopProduct, mouseProduct, keyboardProduct, headphonesProduct] := by
  simp [stableSort, insertStable, recLe_lk, recLe_lm, recLe_mmo, recLe_lmo, recLe_kmo,
    recLe_mh, recLe_lh, recLe_moh, recLe_kh, PRODUCTS_DB]

/-- The stable sort of the two `Peripherals` products. -/
theorem sort_periph : stableSort recLe [keyboardProduct, mouseProduct] =
    [mouseProduct, keyboardProduct] := by
  simp [stableSort, insertStable, recLe_kmo]

/-- C8 (amended): `recommend_products` treats a missing or empty-string
category as "no filter" (Python truthiness) and succeeds with the top 3
products of the whole catalog sorted by (rating, review count) descending; a
non-empty category filters the catalog case-insensitively and succeeds with
the filtered products in that order (at most 3), while a non-empty category
matching no product is an error listing the available categories. -/
theorem C8_thm : ∀ (s : AgentState) (cat : Option Str), s.productsDb = PRODUCTS_DB →
    (cat = none ∨ cat = some [] →
      (recommend_products cat s).1.status = ToolStatus.success ∧
      (recommend_products cat s).1.recommendations =
        some ["4K HDR Monitor", "Gaming Laptop Pro", "Gaming Mouse Pro"]) ∧
    ∀ c, cat = some c → c ≠ [] →
      (pyLower c = "computers".toList →
        (recommend_products cat s).1.status = ToolStatus.success ∧
        (recommend_products cat s).1.recommendations = some ["Gaming Laptop Pro"]) ∧
      (pyLower c = "peripherals".toList →
        (recommend_products cat s).1.status = ToolStatus.success ∧
        (recommend_products cat s).1.recommendations =
          some ["Gaming Mouse Pro", "Mechanical RGB Keyboard"]) ∧
      (pyLower c = "monitors".toList →
        (recommend_products cat s).1.status = ToolStatus.success ∧
        (recommend_products cat s).1.recommendations = some ["4K HDR Monitor"]) ∧
      (pyLower c = "audio".toList →
        (recommend_products cat s).1.status = ToolStatus.success ∧
        (recommend_products cat s).1.recommendations = some ["Gaming Headphones 7.1"]) ∧
      (pyLower c ∉ ["computers".toList, "peripherals".toList,
          "monitors".toList, "audio".toList] →
        (recommend_products cat s).1.status = ToolStatus.error ∧
        (recommend_products cat s).1.availableCategories = some (categoriesOf PRODUCTS_DB) ∧
        (recommend_products cat s).1.availableCategories =
          some ["Computers".toList, "Monitors".toList,
            "Peripherals".toList, "Audio".toList]) := by
  intro s cat hdb
  constructor
  · intro hc
    rcases hc with rfl | rfl <;>
      simp [recommend_products, recommendTop, hdb, sort_all] <;>
        exact ⟨rfl, rfl, rfl⟩
  · intro c hcat hne
    subst hcat
    have hstep : ∀ key : Str, pyLower c = key →
        (recommend_products (some c) s).1 =
          recommendTop ((PRODUCTS_DB.map (fun kp => kp.2)).filter
            (fun p => decide (pyLower p.category = key))) ∨
        ((PRODUCTS_DB.map (fun kp => kp.2)).filter
            (fun p => decide (pyLower p.category = key)) = [] ∧
          (recommend_products (some c) s).1.status = ToolStatus.error ∧
          (recommend_products (some c) s).1.availableCategories =
            some (categoriesOf PRODUCTS_DB)) := by
      intro key hkey
      simp only [recommend_products, hdb, hkey]
      rw [if_neg hne]
      by_cases hfil : (PRODUCTS_DB.map (fun kp => kp.2)).filter
          (fun p => decide (pyLower p.category = key)) = []
      · rw [if_pos hfil]
        exact Or.inr ⟨hfil, rfl, rfl⟩
      · rw [if_neg hfil]
        exact Or.inl rfl
    refine ⟨?_, ?_, ?_, ?_, ?_⟩
    · intro hkey
      rcases hstep _ hkey with h | ⟨hfil, -⟩
      · rw [h]
        have : (PRODUCTS_DB.map (fun kp => kp.2)).filter
            (fun p => decide (pyLower p.category = "computers".toList)) = [laptopProduct] := rfl
        rw [this]
        exact ⟨rfl, rfl⟩
      · cases hfil
    · intro hkey
      rcases hstep _ hkey with h | ⟨hfil, -⟩
      · rw [h]
        have : (PRODUCTS_DB.map (fun kp => kp.2)).filter
            (fun p => decide (pyLower p.category = "peripherals".toList)) =
              [keyboardProduct, mouseProduct] := rfl
        rw [this]
        refine ⟨rfl, ?_⟩
        simp [recommendTop, sort_periph]
        exact ⟨rfl, rfl⟩
      · cases hfil
    · intro hkey
      rcases hstep _ hkey with h | ⟨hfil, -⟩
      · rw [h]
        have : (PRODUCTS_DB.map (fun kp => kp.2)).filter
            (fun p => decide (pyLower p.category = "monitors".toList)) = [monitorProduct] := rfl
        rw [this]
        exact ⟨rfl, rfl⟩
      · cases hfil
    · intro hkey
      rcases hstep _ hkey with h | ⟨hfil, -⟩
      · rw [h]
        have : (PRODUCTS_DB.map (fun kp => kp.2)).filter
            (fun p => decide (pyLower p.category = "audio".toList)) = [headphonesProduct] := rfl
        rw [this]
        exact ⟨rfl, rfl⟩
      · cases hfil
    · intro hnotin
      simp only [List.mem_cons, List.mem_singleton, not_or] at hnotin
      obtain ⟨hn1, hn2, hn3, hn4, -⟩ := hnotin
      rcases hstep (pyLower c) rfl with h | ⟨-, h1, h2⟩
      · exfalso
        have hfil : (PRODUCTS_DB.map (fun kp => kp.2)).filter
            (fun p => decide (pyLower p.category = pyLower c)) = [] := by
          rw [List.filter_eq_nil_iff]
          intro p hp
          simp only [decide_eq_true_eq]
          simp only [PRODUCTS_DB, List.map_cons, List.map_nil, List.mem_cons,
            List.mem_singleton] at hp
          rcases hp with rfl | rfl | rfl | rfl | rfl | hp
          · exact fun hh => hn1 (by rw [← hh]; rfl)
          · exact fun hh => hn2 (by rw [← hh]; rfl)
          · exact fun hh => hn3 (by rw [← hh]; rfl)
          · exact fun hh => hn2 (by rw [← hh]; rfl)
          · exact fun hh => hn4 (by rw [← hh]; rfl)
          · cases hp
        -- but then recommend_products would have taken the error branch,
        -- contradicting the success shape `h`
        simp only [recommend_products, hdb] at h
        rw [if_neg hne, if_pos hfil] at h
        have := congrArg ToolResult.status h
        simp [recommendTop] at this
      · exact ⟨h1, h2, by rw [h2]; rfl⟩

theorem C8_witness :
    (recommend_products (some ("PERIPHERALS".toList)) initialState).1.status
      = ToolStatus.success ∧
    (recommend_products (some ("PERIPHERALS".toList)) initialState).1.recommendations =
      some ["Gaming Mouse Pro", "Mechanical RGB Keyboard"] :=
  ((C8_thm initialState (some ("PERIPHERALS".toList)) rfl).2
    ("PERIPHERALS".toList) rfl (by decide)).2.1 rfl

set_option maxRecDepth 16384 in
/-- C2 counterexample: the unresolved-product error of `add_to_cart` has no
suggestions list (its message only points at the search tool), refuting
"rejects queries that findProduct cannot resolve with an error result
listing suggestions". -/
theorem C2_cex :
    (add_to_cart ("xyz123".toList) 1 initialState).1.status = ToolStatus.error ∧
    (add_to_cart ("xyz123".toList) 1 initialState).1.suggestions = none :=
  ⟨rfl, rfl⟩

set_option maxRecDepth 8192 in
/-- C2 (amended): for every reachable state, `add_to_cart` rejects
non-positive quantities with an error result, leaving the state unchanged
(non-integer inputs are ruled out by the `isinstance` check, modelled by
typing the quantity as `ℤ`); rejects unresolved queries with an error
result that carries no suggestions list, leaving the state unchanged;
rejects requests where the quantity already in the cart plus the requested
quantity exceeds the product's stock, reporting the remaining-available
count `stock − in_cart`; and otherwise succeeds, merging into the existing
line item (recomputing its subtotal) or appending a new line item, after
which the line's quantity is `in_cart + quantity` and `get_subtotal` has
increased by exactly unit price × quantity. -/
theorem C2_thm : ∀ s : AgentState, Reach s → ∀ (p : Str) (q : ℤ),
    (q ≤ 0 →
      (add_to_cart p q s).1.status = ToolStatus.error ∧ (add_to_cart p q s).2 = s) ∧
    (0 < q → find_product_fuzzy PRODUCTS_DB p = none →
      (add_to_cart p q s).1.status = ToolStatus.error ∧
      (add_to_cart p q s).1.suggestions = none ∧
      (add_to_cart p q s).2 = s) ∧
    ∀ k pr, 0 < q → find_product_fuzzy PRODUCTS_DB p = some (k, pr) →
      ((pr.stock : ℤ) < cartQty s.cart pr.id + q →
        (add_to_cart p q s).1.status = ToolStatus.error ∧
        (add_to_cart p q s).1.available = some ((pr.stock : ℤ) - cartQty s.cart pr.id) ∧
        (add_to_cart p q s).2 = s) ∧
      (cartQty s.cart pr.id + q ≤ (pr.stock : ℤ) →
        (add_to_cart p q s).1.status = ToolStatus.success ∧
        (add_to_cart p q s).2.cart.get_subtotal =
          s.cart.get_subtotal + pr.price * (q : ℚ) ∧
        cartQty (add_to_cart p q s).2.cart pr.id = cartQty s.cart pr.id + q ∧
        (get_cart_item_by_product s.cart pr.id = none →
          (add_to_cart p q s).2.cart.items =
            s.cart.items ++ [CartItem.make pr.id pr.name pr.price q]) ∧
        ∀ e, get_cart_item_by_product s.cart pr.id = some e →
          (add_to_cart p q s).2.cart.items = addQtyFirst s.cart.items pr.id q) := by
  intro s hs p q
  obtain ⟨hdb, hinv, hnd, -⟩ := reach_inv hs
  refine ⟨?_, ?_, ?_⟩
  · intro h0
    simp only [add_to_cart]
    rw [if_pos h0]
    exact ⟨by trivial, by trivial⟩
  · intro h0 hf
    simp only [add_to_cart, hdb]
    rw [if_neg (not_le.mpr h0)]
    simp only [hf]
    exact ⟨by trivial, by trivial, by trivial⟩
  · intro k pr hq hf
    constructor
    · intro hstock
      simp only [add_to_cart, hdb]
      rw [if_neg (not_le.mpr hq)]
      simp only [hf]
      rw [if_pos hstock]
      exact ⟨by trivial, by trivial, by trivial⟩
    · intro hstock
      simp only [add_to_cart, hdb]
      rw [if_neg (not_le.mpr hq)]
      simp only [hf]
      rw [if_neg (not_lt.mpr hstock)]
      cases hg : get_cart_item_by_product s.cart pr.id with
      | none =>
        have hgf : s.cart.items.find? (fun it => decide (it.product_id = pr.id)) = none := hg
        simp only [hg]
        refine ⟨by trivial, ?_, ?_, fun _ => by trivial, ?_⟩
        · simp only [Cart.get_subtotal, List.map_append, List.sum_append, List.map_cons,
            List.map_nil, List.sum_cons, List.sum_nil, CartItem.make]
          ring
        · simp only [cartQty, get_cart_item_by_product]
          rw [hgf, find?_append_of_none hgf,
            List.find?_cons_of_pos _ (by simp [CartItem.make])]
          simp [CartItem.make]
        · intro e hge
          cases hge
      | some e =>
        have hg2 : s.cart.items.find? (fun it => decide (it.product_id = pr.id)) = some e := hg
        simp only [hg]
        obtain ⟨hepos, hesub, kp1, hkp1, hid1, hpr1⟩ :=
          hinv e (List.mem_of_find?_eq_some hg2)
        have hide : e.product_id = pr.id := by
          have := List.find?_some hg2
          simpa using this
        have hprice : e.unit_price = pr.price := by
          have hmem2 : (k, pr) ∈ PRODUCTS_DB := fpf_mem hf
          have := products_id_price hkp1 hmem2 (by rw [hid1, hide])
          rw [← hpr1, this]
        refine ⟨by trivial, ?_, ?_, ?_, fun e2 he2 => by trivial⟩
        · have hsum := addQtyFirst_sum (e := e) q (fun it hit => (hinv it hit).2.1) hg2
          simp only [Cart.get_subtotal]
          rw [hsum, hprice]
        · simp only [cartQty, get_cart_item_by_product]
          rw [addQtyFirst_find hg2, hg2]
        · intro hnone
          cases hnone

theorem C2_witness :
    (add_to_cart ("gaming laptop pro".toList) 2 initialState).1.status = ToolStatus.success ∧
    (add_to_cart ("gaming laptop pro".toList) 2 initialState).2.cart.get_subtotal =
      initialState.cart.get_subtotal + laptopProduct.price * ((2 : ℤ) : ℚ) ∧
    cartQty (add_to_cart ("gaming laptop pro".toList) 2 initialState).2.cart laptopProduct.id =
      cartQty initialState.cart laptopProduct.id + 2 :=
  have h := ((C2_thm initialState Reach.init ("gaming laptop pro".toList) 2).2.2
    ("gaming laptop pro".toList) laptopProduct (by decide) rfl).2 (by decide)
  ⟨h.1, h.2.1, h.2.2.1⟩

/-- C6 counterexample: `view_cart` on a nonempty cart returns a `success`
result that carries no `"message"` key, refuting the claim that every
operation's result comes with a human-readable message. -/
theorem C6_cex :
    (runTool ToolCall.viewCart
      ⟨PRODUCTS_DB, ⟨[CartItem.make "LPG001" "Gaming Laptop Pro" 1500 1], none⟩, []⟩).1.status
      = ToolStatus.success ∧
    (runTool ToolCall.viewCart
      ⟨PRODUCTS_DB, ⟨[CartItem.make "LPG001" "Gaming Laptop Pro" 1500 1], none⟩, []⟩).1.message
      = none :=
  ⟨rfl, rfl⟩

/-- C6 (amended): every tool call, on every input, returns a structured
result tagged with a status that is one of `success`, `error`, `empty`,
`not_found`; every such result carries a human-readable message except the
`success` results of `view_cart` and `show_search_history`, which have no
message key.  All operations are total functions of the state (errors are
recovered locally as `error`-status results; no fault propagates). -/
theorem C6_thm : ∀ (call : ToolCall) (s : AgentState),
    ((runTool call s).1.status = ToolStatus.success ∨
      (runTool call s).1.status = ToolStatus.error ∨
      (runTool call s).1.status = ToolStatus.empty ∨
      (runTool call s).1.status = ToolStatus.not_found) ∧
    ((runTool call s).1.message = none →
      (call = ToolCall.viewCart ∨ call = ToolCall.showHistory) ∧
        (runTool call s).1.status = ToolStatus.success) := by
  intro call s
  constructor
  · cases h : (runTool call s).1.status
    · exact Or.inl rfl
    · exact Or.inr (Or.inl rfl)
    · exact Or.inr (Or.inr (Or.inl rfl))
    · exact Or.inr (Or.inr (Or.inr rfl))
  · intro hmsg
    cases call with
    | searchProduct n =>
      exfalso
      rw [runTool] at hmsg
      simp only [search_product_by_name] at hmsg
      cases hf : find_product_fuzzy s.productsDb n <;> simp only [hf] at hmsg <;> cases hmsg
    | addToCart p q =>
      exfalso
      rw [runTool] at hmsg
      simp only [add_to_cart] at hmsg
      repeat' split at hmsg
      all_goals cases hmsg
    | viewCart =>
      rw [runTool] at hmsg ⊢
      simp only [view_cart] at hmsg ⊢
      by_cases h0 : s.cart.items = []
      · rw [if_pos h0] at hmsg
        cases hmsg
      · rw [if_neg h0] at hmsg ⊢
        exact ⟨by simp, rfl⟩
    | applyDiscount c =>
      exfalso
      rw [runTool] at hmsg
      simp only [apply_discount] at hmsg
      repeat' split at hmsg
      all_goals cases hmsg
    | removeFromCart p q =>
      exfalso
      rw [runTool] at hmsg
      simp only [remove_from_cart] at hmsg
      repeat' split at hmsg
      all_goals cases hmsg
    | clearCart =>
      exfalso
      rw [runTool] at hmsg
      cases hmsg
    | calculateTotal =>
      exfalso
      rw [runTool] at hmsg
      simp only [calculate_total] at hmsg
      repeat' split at hmsg
      all_goals cases hmsg
    | recommendProducts c =>
      exfalso
      rw [runTool] at hmsg
      simp only [recommend_products, recommendTop] at hmsg
      repeat' split at hmsg
      all_goals cases hmsg
    | showHistory =>
      rw [runTool] at hmsg ⊢
      simp only [show_search_history] at hmsg ⊢
      by_cases h0 : s.searchHistory = []
      · rw [if_pos h0] at hmsg
        cases hmsg
      · rw [if_neg h0] at hmsg ⊢
        exact ⟨by simp, rfl⟩

theorem C6_witness :
    (ToolCall.viewCart = ToolCall.viewCart ∨ ToolCall.viewCart = ToolCall.showHistory) ∧
    (runTool ToolCall.viewCart
      ⟨PRODUCTS_DB, ⟨[CartItem.make "TEC005" "Mechanical RGB Keyboard" 120 2], none⟩, []⟩).1.status
      = ToolStatus.success :=
  (C6_thm ToolCall.viewCart
    ⟨PRODUCTS_DB, ⟨[CartItem.make "TEC005" "Mechanical RGB Keyboard" 120 2], none⟩, []⟩).2 rfl

theorem C9_witness :
    (runTool (ToolCall.searchProduct ("monitor".toList)) initialState).2.cart
        = initialState.cart ∧
    (runTool (ToolCall.searchProduct ("monitor".toList)) initialState).2.searchHistory
        = initialState.searchHistory ++ ["monitor".toList] :=
  (C9_thm (ToolCall.searchProduct ("monitor".toList)) initialState).2.1
    ("monitor".toList) rfl

end EC
